import Mathlib

/-!
Verification of the iec-relay-sdk client library (jwt.ts and client.ts)
against its natural-language specification.

The TypeScript sources are shallowly embedded:
* JS runtime values appearing in parsed JSON are the inductive `Jv`;
  JS truthiness is `Jv.truthy` / `optTruthy`.
* `Buffer.from(_, 'base64url')` / `.toString('base64url')` are `b64Decode` /
  `b64Encode` over byte lists (`List Nat`, each byte < 256); Node ignores
  characters outside the base64url alphabet when decoding, hence the filter.
* `Buffer.from(string)` (UTF-8 encode) is `utf8Encode`; `.toString()` is the
  lossy decoder `utf8Decode` (fuel-based; exact lossy replacement behaviour
  for invalid multi-byte sequences is approximated, which no theorem relies
  on — all inputs reasoned about are ASCII or valid encodings).
* `JSON.parse` is the fuel-based recursive-descent `jsonParse` producing `Jv`.
  Numbers are restricted to (signed) integers: a fractional or exponent part
  makes the parse fail rather than produce a wrong value; no payload in any
  claim involves non-integer numbers.
* The wall clock `Math.floor(Date.now() / 1000)` is an explicit `now : Nat`
  parameter (seconds), threaded to every function that reads the clock.
* `createHmac('sha256', secret).update(msg).digest('base64url')` is kept
  opaque: `mintServiceJwt` receives the produced signature segment as a
  parameter.  No claim depends on the signature bytes, only on the fact that
  a base64url digest contains no '.' character, which becomes an explicit
  hypothesis.
-/

namespace IecRelay

/-- A JavaScript runtime value, as produced by `JSON.parse`. -/
inductive Jv where
  | jnull
  | jbool (b : Bool)
  | jnum (n : Int)
  | jstr (s : String)
  | jarr (elems : List Jv)
  | jobj (fields : List (String × Jv))

/-- JS truthiness of a `Jv`: `null`, `false`, `0` and `""` are falsy;
objects and arrays are always truthy. -/
def Jv.truthy : Jv → Bool
  | .jnull => false
  | .jbool b => b
  | .jnum n => n != 0
  | .jstr s => s != ""
  | .jarr _ => true
  | .jobj _ => true

/-- JS truthiness of an optional string field: `undefined`/absent and the
empty string are falsy. -/
def optTruthy : Option String → Bool
  | none => false
  | some s => s != ""

/-- JS object property read with duplicate keys: `JSON.parse` keeps the last
occurrence of a duplicated key, which a left fold reproduces. -/
def jsObjGet (key : String) (fields : List (String × Jv)) : Option Jv :=
  fields.foldl (fun acc kv => if kv.1 = key then some kv.2 else acc) none

/-- `String.prototype.split` with a single-character separator:
`"".split('.') = [""]`, and separators at either end produce empty pieces. -/
def splitOnChar (sep : Char) : List Char → List (List Char)
  | [] => [[]]
  | c :: rest =>
    let r := splitOnChar sep rest
    if c = sep then [] :: r
    else
      match r with
      | h :: t => (c :: h) :: t
      | [] => [[c]]

/-! ### base64url (Node `Buffer`, unpadded alphabet `A-Z a-z 0-9 - _`) -/

def b64Alphabet : List Char :=
  ['A','B','C','D','E','F','G','H','I','J','K','L','M',
   'N','O','P','Q','R','S','T','U','V','W','X','Y','Z',
   'a','b','c','d','e','f','g','h','i','j','k','l','m',
   'n','o','p','q','r','s','t','u','v','w','x','y','z',
   '0','1','2','3','4','5','6','7','8','9','-','_']

def b64Char (i : Nat) : Char := b64Alphabet.getD i 'A'

def isB64Char (c : Char) : Bool := b64Alphabet.contains c

def b64ValAux (c : Char) : List Char → Nat → Nat
  | [], _ => 0
  | a :: rest, i => if a = c then i else b64ValAux c rest (i + 1)

/-- Index of a base64url character in the alphabet (0 for foreign chars,
which only ever runs on filtered input). -/
def b64Val (c : Char) : Nat := b64ValAux c b64Alphabet 0

/-- Unpadded base64url encoding of a byte list. -/
def b64Encode : List Nat → List Char
  | [] => []
  | [a] => [b64Char (a / 4), b64Char (a % 4 * 16)]
  | [a, b] => [b64Char (a / 4), b64Char (a % 4 * 16 + b / 16), b64Char (b % 16 * 4)]
  | a :: b :: c :: rest =>
    b64Char (a / 4) :: b64Char (a % 4 * 16 + b / 16) ::
    b64Char (b % 16 * 4 + c / 64) :: b64Char (c % 64) :: b64Encode rest

/-- Decode a list of (already filtered) base64url characters, four at a time;
a trailing group of two or three characters yields one or two bytes, a
trailing single character is dropped — Node's lenient behaviour. -/
def b64DecodeChunks : List Char → List Nat
  | c1 :: c2 :: c3 :: c4 :: rest =>
    (b64Val c1 * 4 + b64Val c2 / 16) ::
    (b64Val c2 % 16 * 16 + b64Val c3 / 4) ::
    (b64Val c3 % 4 * 64 + b64Val c4) :: b64DecodeChunks rest
  | [c1, c2] => [b64Val c1 * 4 + b64Val c2 / 16]
  | [c1, c2, c3] =>
    [b64Val c1 * 4 + b64Val c2 / 16, b64Val c2 % 16 * 16 + b64Val c3 / 4]
  | _ => []

/-- `Buffer.from(s, 'base64url')`: Node ignores characters outside the
alphabet, then decodes. -/
def b64Decode (s : List Char) : List Nat :=
  b64DecodeChunks (s.filter isB64Char)

/-! ### UTF-8 (Node `Buffer.from(string)` / `buf.toString()`) -/

def utf8EncodeChar (c : Char) : List Nat :=
  let n := c.toNat
  if n < 0x80 then [n]
  else if n < 0x800 then [0xC0 + n / 64, 0x80 + n % 64]
  else if n < 0x10000 then [0xE0 + n / 4096, 0x80 + n / 64 % 64, 0x80 + n % 64]
  else [0xF0 + n / 262144, 0x80 + n / 4096 % 64, 0x80 + n / 64 % 64, 0x80 + n % 64]

def utf8Encode : List Char → List Nat
  | [] => []
  | c :: rest => utf8EncodeChar c ++ utf8Encode rest

def isUtf8Cont (b : Nat) : Bool := 0x80 ≤ b && b < 0xC0

/-- The U+FFFD replacement character emitted for invalid sequences. -/
def replChar : Char := Char.ofNat 0xFFFD

/-- Lossy UTF-8 decoding with fuel (each step consumes at least one byte, so
fuel = length suffices). -/
def utf8Decode : Nat → List Nat → List Char
  | 0, _ => []
  | _, [] => []
  | fuel + 1, b :: rest =>
    if b < 0x80 then Char.ofNat b :: utf8Decode fuel rest
    else if b < 0xC0 then replChar :: utf8Decode fuel rest
    else if b < 0xE0 then
      match rest with
      | b2 :: rest2 =>
        if isUtf8Cont b2 then
          Char.ofNat ((b - 0xC0) * 64 + (b2 - 0x80)) :: utf8Decode fuel rest2
        else replChar :: utf8Decode fuel rest
      | [] => [replChar]
    else if b < 0xF0 then
      match rest with
      | b2 :: b3 :: rest3 =>
        if isUtf8Cont b2 && isUtf8Cont b3 then
          Char.ofNat ((b - 0xE0) * 4096 + (b2 - 0x80) * 64 + (b3 - 0x80)) ::
            utf8Decode fuel rest3
        else replChar :: utf8Decode fuel rest
      | _ => [replChar]
    else
      match rest with
      | b2 :: b3 :: b4 :: rest4 =>
        if isUtf8Cont b2 && isUtf8Cont b3 && isUtf8Cont b4 then
          Char.ofNat ((b - 0xF0) * 262144 + (b2 - 0x80) * 4096 +
              (b3 - 0x80) * 64 + (b4 - 0x80)) :: utf8Decode fuel rest4
        else replChar :: utf8Decode fuel rest
      | _ => [replChar]

/-- `buf.toString()` on a byte list. -/
def utf8DecodeAll (bs : List Nat) : List Char := utf8Decode bs.length bs

/-! ### Decimal integers (JS number-to-string and JSON number syntax) -/

def digitChar (n : Nat) : Char := Char.ofNat (48 + n)

def natToDecAux : Nat → Nat → List Char
  | 0, _ => []
  | fuel + 1, n =>
    if n < 10 then [digitChar n]
    else natToDecAux fuel (n / 10) ++ [digitChar (n % 10)]

/-- Decimal rendering of a natural number, as `JSON.stringify` renders a
non-negative integer. -/
def natToDec (n : Nat) : List Char := natToDecAux (n + 1) n

def isDigitCh (c : Char) : Bool := 48 ≤ c.toNat && c.toNat ≤ 57

/-- Consume a maximal run of decimal digits, folding them onto `acc`. -/
def parseDigits : List Char → Nat → Nat × List Char
  | [], acc => (acc, [])
  | c :: rest, acc =>
    if isDigitCh c then parseDigits rest (acc * 10 + (c.toNat - 48))
    else (acc, c :: rest)

/-! ### JSON.parse

A fuel-based recursive-descent parser producing `Jv`.  Fuel strictly
decreases on every recursive call between the mutual functions, so any fuel
larger than the token count of the input is sufficient (monotonicity is
proved below). -/

def isJsonWs (c : Char) : Bool := c = ' ' || c = '\t' || c = '\n' || c = '\r'

def skipWs : List Char → List Char
  | [] => []
  | c :: rest => if isJsonWs c then skipWs rest else c :: rest

def hexVal (c : Char) : Option Nat :=
  if isDigitCh c then some (c.toNat - 48)
  else if 97 ≤ c.toNat && c.toNat ≤ 102 then some (c.toNat - 87)
  else if 65 ≤ c.toNat && c.toNat ≤ 70 then some (c.toNat - 55)
  else none

/-- Body of a JSON string literal after the opening quote, up to the closing
quote.  Surrogate-pair recombination of consecutive `\uXXXX` escapes is not
modelled (no claim involves astral characters). -/
def parseStringBody : List Char → Option (List Char × List Char)
  | [] => none
  | '"' :: rest => some ([], rest)
  | '\\' :: 'u' :: h1 :: h2 :: h3 :: h4 :: rest =>
    match hexVal h1, hexVal h2, hexVal h3, hexVal h4 with
    | some v1, some v2, some v3, some v4 =>
      (parseStringBody rest).map fun r =>
        (Char.ofNat (v1 * 4096 + v2 * 256 + v3 * 16 + v4) :: r.1, r.2)
    | _, _, _, _ => none
  | '\\' :: e :: rest =>
    let esc : Option Char :=
      if e = '"' then some '"'
      else if e = '\\' then some '\\'
      else if e = '/' then some '/'
      else if e = 'b' then some (Char.ofNat 8)
      else if e = 'f' then some (Char.ofNat 12)
      else if e = 'n' then some '\n'
      else if e = 'r' then some (Char.ofNat 13)
      else if e = 't' then some '\t'
      else none
    match esc with
    | some c => (parseStringBody rest).map fun r => (c :: r.1, r.2)
    | none => none
  | c :: rest =>
    if c.toNat < 32 then none
    else (parseStringBody rest).map fun r => (c :: r.1, r.2)

/-- A JSON integer (optional minus, digit run).  A following `.`, `e` or `E`
(fraction/exponent) makes the parse fail instead of producing a wrong
integer; no payload in the claims involves non-integer numbers. -/
def parseIntLit : List Char → Option (Int × List Char)
  | '-' :: c :: rest =>
    if isDigitCh c then
      let r := parseDigits (c :: rest) 0
      match r.2 with
      | d :: _ => if d = '.' || d = 'e' || d = 'E' then none else some (-(r.1 : Int), r.2)
      | [] => some (-(r.1 : Int), [])
    else none
  | c :: rest =>
    if isDigitCh c then
      let r := parseDigits (c :: rest) 0
      match r.2 with
      | d :: _ => if d = '.' || d = 'e' || d = 'E' then none else some ((r.1 : Int), r.2)
      | [] => some ((r.1 : Int), [])
    else none
  | [] => none

def strOfChars (cs : List Char) : String := String.mk cs

mutual

def parseJv : Nat → List Char → Option (Jv × List Char)
  | 0, _ => none
  | fuel + 1, s =>
    match skipWs s with
    | [] => none
    | c :: rest =>
      if c = '{' then parseMembers fuel rest
      else if c = '[' then parseElems fuel rest
      else if c = '"' then
        (parseStringBody rest).map fun r => (Jv.jstr (strOfChars r.1), r.2)
      else if c = 't' then
        match rest with
        | 'r' :: 'u' :: 'e' :: r2 => some (Jv.jbool true, r2)
        | _ => none
      else if c = 'f' then
        match rest with
        | 'a' :: 'l' :: 's' :: 'e' :: r2 => some (Jv.jbool false, r2)
        | _ => none
      else if c = 'n' then
        match rest with
        | 'u' :: 'l' :: 'l' :: r2 => some (Jv.jnull, r2)
        | _ => none
      else (parseIntLit (c :: rest)).map fun r => (Jv.jnum r.1, r.2)
termination_by structural fuel _ => fuel

/-- Object body after the opening `{`. -/
def parseMembers : Nat → List Char → Option (Jv × List Char)
  | 0, _ => none
  | fuel + 1, s =>
    match skipWs s with
    | '}' :: rest => some (Jv.jobj [], rest)
    | other => parseMembersLoop fuel other []
termination_by structural fuel _ => fuel

/-- One `"key": value` member, then `,` (continue) or `}` (finish). -/
def parseMembersLoop : Nat → List Char → List (String × Jv) → Option (Jv × List Char)
  | 0, _, _ => none
  | fuel + 1, s, acc =>
    match skipWs s with
    | '"' :: rest =>
      match parseStringBody rest with
      | some (key, afterKey) =>
        match skipWs afterKey with
        | ':' :: afterColon =>
          match parseJv fuel afterColon with
          | some (v, afterVal) =>
            let acc2 := acc ++ [(strOfChars key, v)]
            match skipWs afterVal with
            | ',' :: afterComma => parseMembersLoop fuel afterComma acc2
            | '}' :: afterBrace => some (Jv.jobj acc2, afterBrace)
            | _ => none
          | none => none
        | _ => none
      | none => none
    | _ => none
termination_by structural fuel _ _ => fuel

/-- Array body after the opening `[`. -/
def parseElems : Nat → List Char → Option (Jv × List Char)
  | 0, _ => none
  | fuel + 1, s =>
    match skipWs s with
    | ']' :: rest => some (Jv.jarr [], rest)
    | other => parseElemsLoop fuel other []
termination_by structural fuel _ => fuel

/-- One array element, then `,` (continue) or `]` (finish). -/
def parseElemsLoop : Nat → List Char → List Jv → Option (Jv × List Char)
  | 0, _, _ => none
  | fuel + 1, s, acc =>
    match parseJv fuel s with
    | some (v, afterVal) =>
      let acc2 := acc ++ [v]
      match skipWs afterVal with
      | ',' :: afterComma => parseElemsLoop fuel afterComma acc2
      | ']' :: afterBracket => some (Jv.jarr acc2, afterBracket)
      | _ => none
    | none => none
termination_by structural fuel _ _ => fuel

end

/-- `JSON.parse`: parse one value and require only whitespace to remain.
Along any chain of recursive calls at least one input character is consumed
per three fuel units, so `3 * length + 3` fuel never runs out. -/
def jsonParse (s : List Char) : Option Jv :=
  match parseJv (3 * s.length + 3) s with
  | some (v, rest) => if skipWs rest = [] then some v else none
  | none => none

/-! ### jwt.ts -/

/-- `JSON.stringify` escaping of one string character. -/
def jsonEscapeChar (c : Char) : List Char :=
  if c = '"' then ['\\', '"']
  else if c = '\\' then ['\\', '\\']
  else if c = '\n' then ['\\', 'n']
  else if c.toNat = 13 then ['\\', 'r']
  else if c = '\t' then ['\\', 't']
  else if c.toNat = 8 then ['\\', 'b']
  else if c.toNat = 12 then ['\\', 'f']
  else if c.toNat < 32 then
    ['\\', 'u', '0', '0', digitChar (c.toNat / 16),
     if c.toNat % 16 < 10 then digitChar (c.toNat % 16) else Char.ofNat (87 + c.toNat % 16)]
  else [c]

def jsonEscape : List Char → List Char
  | [] => []
  | c :: rest => jsonEscapeChar c ++ jsonEscape rest

/-- The exact output of `JSON.stringify` on the payload object literal of
`mintServiceJwt` (`{ programId, scopes: ['service:relay'], iat: now,
exp: now + ttlSeconds }`): keys in insertion order, no whitespace, the two
numbers non-negative integers. -/
def payloadJsonChars (programId : String) (iat expiry : Nat) : List Char :=
  "\x7b\"programId\":\"".data ++ jsonEscape programId.data ++
  "\",\"scopes\":[\"service:relay\"],\"iat\":".data ++ natToDec iat ++
  ",\"exp\":".data ++ natToDec expiry ++ "\x7d".data

/-- The `Jv` that `JSON.parse` recovers from `payloadJsonChars` (proved
below). -/
def payloadJv (programId : String) (iat expiry : Nat) : Jv :=
  Jv.jobj [("programId", Jv.jstr programId),
           ("scopes", Jv.jarr [Jv.jstr "service:relay"]),
           ("iat", Jv.jnum iat),
           ("exp", Jv.jnum expiry)]

/-- `mintServiceJwt(secret, programId, ttlSeconds = 300)` from jwt.ts.
`now` is `Math.floor(Date.now() / 1000)`.  The HMAC-SHA256 signature is
opaque to everything proved here, so the base64url digest the source
computes from `secret` over `header ++ "." ++ encodedPayload` is received
as the `signature` argument (a real digest never contains `'.'`). -/
def mintServiceJwt (signature : String) (programId : String)
    (ttlSeconds : Nat := 300) (now : Nat := 0) : String :=
  let header := b64Encode (utf8Encode "\x7b\"alg\":\"HS256\",\"typ\":\"JWT\"\x7d".data)
  let encodedPayload :=
    b64Encode (utf8Encode (payloadJsonChars programId now (now + ttlSeconds)))
  String.mk (header ++ '.' :: encodedPayload ++ '.' :: signature.data)

/-- JS `ToNumber` coercion on the values `payload.exp` can hold, `none`
meaning `NaN` (every comparison against `NaN` is false).  Strings are
coerced by a strict decimal read and arrays through their single element,
an approximation of the full JS coercion ladder that no claim exercises:
the claims only reach the `undefined`, missing-field and integer cases. -/
def jsToNumber : Jv → Option Int
  | .jnull => some 0
  | .jbool b => some (if b then 1 else 0)
  | .jnum n => some n
  | .jstr s =>
    match skipWs s.data with
    | [] => some 0
    | other => (parseIntLit other).bind fun r => if r.2 = [] then some r.1 else none
  | .jarr [] => some 0
  | .jarr [v] => jsToNumber v
  | .jarr _ => none
  | .jobj _ => none

/-- `payload.exp <= bound` in JS: `undefined` (absent field) and `NaN`
compare false. -/
def jsLeNum (v : Option Jv) (bound : Int) : Bool :=
  match v with
  | none => false
  | some jv =>
    match jsToNumber jv with
    | none => false
    | some n => n ≤ bound

/-- Reading `payload.exp`: a property read on `null` throws (caught by the
source's `try`), on any other primitive or object it yields the field or
`undefined`. -/
def expRead : Jv → Except Unit (Option Jv)
  | .jnull => .error ()
  | .jobj fields => .ok (jsObjGet "exp" fields)
  | _ => .ok none

/-- `isTokenExpired(token, bufferSeconds = 30)` from jwt.ts.  `now` is
`Math.floor(Date.now() / 1000)`.  Any exception inside the `try` (JSON
parse failure, property read on `null`) yields `true`. -/
def isTokenExpired (token : String) (bufferSeconds : Nat := 30)
    (now : Nat := 0) : Bool :=
  match splitOnChar '.' token.data with
  | [_, p, _] =>
    match jsonParse (utf8DecodeAll (b64Decode p)) with
    | none => true
    | some payload =>
      match expRead payload with
      | .error _ => true
      | .ok expField => jsLeNum expField ((now : Int) + (bufferSeconds : Int))
  | _ => true

/-! ### client.ts: configuration and constructor -/

def DEFAULT_JANUS_URL : String := "http://janus.janus-prod.svc.cluster.local:3000"
def RELAY_API_PATH : String := "/api/relay"
def DEFAULT_TIMEOUT_MS : Nat := 10000

/-- The error type thrown throughout client.ts. -/
structure RelayError where
  message : String
  statusCode : Nat
  code : Option String := none
  details : Option Jv := none

/-- `RelayClientConfig` from types.ts.  `accessTokenFn` is an async
`() => Promise<string>`; its presence is what the constructor tests
(`typeof === 'function'`), and the string it resolves to is what
`buildRequest` awaits, so it is embedded as the optional resolved token. -/
structure RelayClientConfig where
  accessTokenFn : Option String := none
  janusUrl : Option String := none
  relayUrl : Option String := none
  internalKey : Option String := none
  jwtSecret : Option String := none
  programId : Option String := none
  tokenTtlSeconds : Option Nat := none
  retries : Option Nat := none
  timeoutMs : Option Nat := none
  sourceService : Option String := none

/-- The config held by a constructed client: the four defaulted fields made
total, the rest as given. -/
structure ResolvedConfig where
  accessTokenFn : Option String
  janusUrl : Option String
  relayUrl : Option String
  internalKey : Option String
  jwtSecret : Option String
  programId : Option String
  tokenTtlSeconds : Nat
  retries : Nat
  timeoutMs : Nat
  sourceService : String

/-- The `RelayClient` constructor: validation then defaulting.  A thrown
`Error` is `.error` with the source's message. -/
def relayClientCtor (config : RelayClientConfig) : Except String ResolvedConfig :=
  let hasAccessTokenFn := config.accessTokenFn.isSome
  let hasJwtSecret := optTruthy config.jwtSecret
  let hasRelayUrl := optTruthy config.relayUrl
  if !hasAccessTokenFn && !hasJwtSecret && !hasRelayUrl then
    .error "iec-relay: Provide accessTokenFn (recommended), jwtSecret (legacy), or relayUrl (local dev)"
  else if hasJwtSecret && !(optTruthy config.programId) then
    .error "iec-relay: programId is required when using jwtSecret"
  else
    .ok { accessTokenFn := config.accessTokenFn
          janusUrl := config.janusUrl
          relayUrl := config.relayUrl
          internalKey := config.internalKey
          jwtSecret := config.jwtSecret
          programId := config.programId
          tokenTtlSeconds := config.tokenTtlSeconds.getD 300
          retries := config.retries.getD 2
          timeoutMs := config.timeoutMs.getD DEFAULT_TIMEOUT_MS
          sourceService :=
            config.sourceService.getD (config.programId.getD "unknown") }

/-! ### client.ts: getToken and buildRequest -/

/-- `getToken()`: serve the cached legacy token if present and fresh, else
check config and mint.  Returns the token together with the new value of the
`cachedToken` field.  `signature` feeds the opaque HMAC segment of a fresh
mint (see `mintServiceJwt`). -/
def getToken (cfg : ResolvedConfig) (cachedToken : Option String)
    (signature : String) (now : Nat) : Except RelayError (String × Option String) :=
  -- `if (this.cachedToken && !isTokenExpired(this.cachedToken))`
  if optTruthy cachedToken && !(isTokenExpired (cachedToken.getD "") 30 now) then
    .ok (cachedToken.getD "", cachedToken)
  else getTokenMint cfg signature now
where
  getTokenMint (cfg : ResolvedConfig) (signature : String) (now : Nat) :
      Except RelayError (String × Option String) :=
    if !(optTruthy cfg.jwtSecret) || !(optTruthy cfg.programId) then
      .error { message := "jwtSecret and programId are required for legacy Janus auth"
               statusCode := 500, code := some "CONFIG_ERROR" }
    else
      let t := mintServiceJwt signature (cfg.programId.getD "") cfg.tokenTtlSeconds now
      .ok (t, some t)

structure BuiltRequest where
  url : String
  headers : List (String × String)

/-- `buildRequest(path)`: URL routing and auth-header selection.  Returns
the request together with the updated `cachedToken` field (changed only on
the legacy mint path). -/
def buildRequest (cfg : ResolvedConfig) (cachedToken : Option String)
    (signature : String) (now : Nat) (path : String) :
    Except RelayError (BuiltRequest × Option String) :=
  if optTruthy cfg.relayUrl then
    -- Direct mode (local dev) — call relay URL directly
    let url := cfg.relayUrl.getD "" ++ path
    match cfg.accessTokenFn with
    | some tok => .ok ({ url := url, headers := [("Authorization", "Bearer " ++ tok)] }, cachedToken)
    | none =>
      if optTruthy cfg.internalKey then
        .ok ({ url := url, headers := [("X-Internal-Key", cfg.internalKey.getD "")] }, cachedToken)
      else
        .ok ({ url := url, headers := [] }, cachedToken)
  else
    -- Gateway mode — route through Janus
    let baseUrl := cfg.janusUrl.getD DEFAULT_JANUS_URL
    let url := baseUrl ++ RELAY_API_PATH ++ path
    match cfg.accessTokenFn with
    | some tok => .ok ({ url := url, headers := [("Authorization", "Bearer " ++ tok)] }, cachedToken)
    | none =>
      -- Legacy self-signed JWT auth
      (getToken cfg cachedToken signature now).map fun r =>
        ({ url := url, headers := [("Authorization", "Bearer " ++ r.1)] }, r.2)

/-! ### client.ts: validation layer and body construction -/

structure Recipient where
  email : Option String := none
  phone : Option String := none
  name : Option String := none

structure ContentPayload where
  subject : Option String := none
  html : Option String := none
  text : Option String := none

/-- `Partial<MessageMetadata>` as accepted by the send options. -/
structure PartialMetadata where
  sourceService : Option String := none
  sourceAction : Option String := none
  correlationId : Option String := none

structure MessageMetadata where
  sourceService : String
  sourceAction : String
  correlationId : Option String := none

/-- Options for `sendEmail` / `sendSMS` (`BaseSendOptions`).  `data` and
`options` are opaque JS objects. -/
structure SendOpts where
  template : Option String := none
  content : Option ContentPayload := none
  «to» : Recipient
  data : Option Jv := none
  options : Option Jv := none
  metadata : Option PartialMetadata := none

/-- The request body handed to `send` (`SendRequest`); `template = none` or
`content = none` mean the field is absent from the serialized body. -/
structure SendRequest where
  template : Option String
  content : Option ContentPayload
  channel : String
  recipient : Recipient
  data : Jv
  options : Option Jv
  metadata : MessageMetadata

/-- JS whitespace class `\s` (the characters a recipient address must not
contain).  The exotic Unicode members are included for fidelity; no claim
exercises them. -/
def isJsSpace (c : Char) : Bool :=
  c = ' ' || c = '\t' || c = '\n' || c.toNat = 13 || c.toNat = 11 ||
  c.toNat = 12 || c.toNat = 0xa0 || c.toNat = 0x1680 ||
  (0x2000 ≤ c.toNat && c.toNat ≤ 0x200a) || c.toNat = 0x2028 ||
  c.toNat = 0x2029 || c.toNat = 0x202f || c.toNat = 0x205f ||
  c.toNat = 0x3000 || c.toNat = 0xfeff

/-- `/^[^\s@]+@[^\s@]+\.[^\s@]+$/.test(s)`.  Since `[^\s@]` excludes `@`,
the string must contain exactly one `@`; the part after it must contain a
`.` that is neither its first nor its last character (the regex engine may
pick any such dot as the literal `\.`); and no character may be whitespace.
This decision procedure is that characterization. -/
def emailRegexTest (s : String) : Bool :=
  match splitOnChar '@' s.data with
  | [localPart, domainPart] =>
    !localPart.isEmpty && localPart.all (fun c => !isJsSpace c) &&
    domainPart.all (fun c => !isJsSpace c) &&
    ((domainPart.drop 1).dropLast.contains '.')
  | _ => false

/-- `/^\+[1-9]\d{1,14}$/.test(s)`: a `+`, one digit `1`-`9`, then one to
fourteen further digits — i.e. two to fifteen digits in total. -/
def phoneRegexTest (s : String) : Bool :=
  match s.data with
  | '+' :: d :: rest =>
    isDigitCh d && d != '0' && rest.all isDigitCh &&
    1 ≤ rest.length && rest.length ≤ 14
  | _ => false

def validationError (msg : String) : RelayError :=
  { message := msg, statusCode := 400, code := some "VALIDATION_ERROR" }

/-- `metadata?.sourceAction ?? options.template ?? fallback` — the nullish
(`??`) chain: an empty-string `sourceAction` or `template` is kept. -/
def sourceActionOf (opts : SendOpts) (fallback : String) : String :=
  ((opts.metadata.bind PartialMetadata.sourceAction).or opts.template).getD fallback

/-- Request-body construction shared by both senders (the object literal of
the `return this.send({...})` call): the `template`/`content` fields are
spread in only when truthy. -/
def buildSendBody (cfg : ResolvedConfig) (opts : SendOpts) (channel : String)
    (sourceAction : String) : SendRequest :=
  { template := if optTruthy opts.template then opts.template else none
    content := opts.content
    channel := channel
    recipient := opts.«to»
    data := opts.data.getD (Jv.jobj [])
    options := opts.options
    metadata :=
      { sourceService :=
          ((opts.metadata.bind PartialMetadata.sourceService).getD cfg.sourceService)
        sourceAction := sourceAction
        correlationId := opts.metadata.bind PartialMetadata.correlationId } }

/-- `sendEmail` up to the hand-off to `send`: validation, then the request
body; a `.error` is the thrown `RelayError` and no network request is made. -/
def sendEmail (cfg : ResolvedConfig) (opts : SendOpts) :
    Except RelayError SendRequest :=
  if !(optTruthy opts.«to».email) || !(emailRegexTest (opts.«to».email.getD "")) then
    .error (validationError "Valid recipient email is required for email channel")
  else if !(optTruthy opts.template) && opts.content.isNone then
    .error (validationError "Either template or content is required")
  else if optTruthy opts.template && opts.content.isSome then
    .error (validationError "Provide template or content, not both")
  else
    match opts.content with
    | some content =>
      if !(optTruthy content.subject) then
        .error (validationError "Email content requires a subject")
      else if !(optTruthy content.html) && !(optTruthy content.text) then
        .error (validationError "Email content requires either html or text")
      else
        .ok (buildSendBody cfg opts "email" (sourceActionOf opts "raw_email"))
    | none =>
      .ok (buildSendBody cfg opts "email" (sourceActionOf opts "raw_email"))

/-- `sendSMS` up to the hand-off to `send`. -/
def sendSMS (cfg : ResolvedConfig) (opts : SendOpts) :
    Except RelayError SendRequest :=
  if !(optTruthy opts.«to».phone) || !(phoneRegexTest (opts.«to».phone.getD "")) then
    .error (validationError "Recipient phone must be in E.164 format (e.g., +15551234567)")
  else if !(optTruthy opts.template) && opts.content.isNone then
    .error (validationError "Either template or content is required")
  else if optTruthy opts.template && opts.content.isSome then
    .error (validationError "Provide template or content, not both")
  else
    match opts.content with
    | some content =>
      if !(optTruthy content.text) then
        .error (validationError "SMS content requires text")
      else
        .ok (buildSendBody cfg opts "sms" (sourceActionOf opts "raw_sms"))
    | none =>
      .ok (buildSendBody cfg opts "sms" (sourceActionOf opts "raw_sms"))

/-! ### client.ts: the request / retry engine

`request` is embedded as a function of the sequence of per-attempt network
outcomes: `env n` is what the `fetch` of attempt `n` does.  Credential
acquisition (`buildRequest`) is modelled separately above; the retry engine
below is the behaviour of `request` once a request could be built (a
credential failure propagates before any retry logic runs). -/

/-- The fields of the response envelope that `request` reads
(`json.data`, `json.error`, `json.details`; the `success` flag is never
consulted — the code branches on `response.ok`). -/
structure ApiBody where
  data : Option Jv := none
  error : Option String := none
  details : Option Jv := none

/-- What `fetch` + `response.json()` did on one attempt: the promise
rejected (network error / abort-on-timeout), or an HTTP response arrived
whose body either failed JSON parsing (`none`) or parsed to a `body`. -/
inductive FetchResult where
  | threw (isTimeout : Bool) (errMessage : Option String)
  | replied (status : Nat) (body : Option ApiBody)

/-- Result of `request`: the unwrapped `data`, or the thrown `RelayError`. -/
inductive ReqOutcome where
  | ok (data : Jv)
  | err (e : RelayError)

def networkErrMessage (timeoutMs : Nat) (isTimeout : Bool)
    (errMessage : Option String) : String :=
  "Failed to reach InsureRelay: " ++
    (if isTimeout then
      "Request timed out after " ++ strOfChars (natToDec timeoutMs) ++ "ms"
    else errMessage.getD "Network error")

/-- One step of `request`'s recursion.  The source guard for every retry is
`attempt < this.config.retries`; with `remaining = retries - attempt`
maintained by the caller this is `remaining > 0`, which the `Nat` pattern
match expresses, making the recursion structural.  The second component of
the result is the total number of outbound `fetch` calls made. -/
def parseErrOf (status : Nat) : RelayError :=
  { message := "InsureRelay returned " ++ strOfChars (natToDec status) ++ " with non-JSON body"
    statusCode := status, code := some "PARSE_ERROR" }

def httpErrOf (status : Nat) (json : ApiBody) : RelayError :=
  { message := json.error.getD ("InsureRelay returned " ++ strOfChars (natToDec status))
    statusCode := status
    code := json.error
    details := json.details }

def emptyRespErr : RelayError :=
  { message := "InsureRelay returned success but no data"
    statusCode := 500, code := some "EMPTY_RESPONSE" }

/-- One step of `request`'s recursion.  The source guard for every retry is
`attempt < this.config.retries`; with `remaining = retries - attempt`
maintained by the caller this is `remaining > 0`, which the `Nat` pattern
match expresses, making the recursion structural.  The second component of
the result is the total number of outbound `fetch` calls made. -/
def requestGo (timeoutMs : Nat) (env : Nat → FetchResult) :
    Nat → Nat → ReqOutcome × Nat
  | remaining, attempt =>
    match env attempt with
    | .threw isTimeout errMessage =>
      match remaining with
      | r + 1 => requestGo timeoutMs env r (attempt + 1)
      | 0 =>
        (.err { message := networkErrMessage timeoutMs isTimeout errMessage
                statusCode := 0
                code := some (if isTimeout then "TIMEOUT" else "NETWORK_ERROR") },
         attempt + 1)
    | .replied status body =>
      match body with
      | none =>
        -- `response.json()` threw: retry iff `status >= 500` and budget left
        match remaining with
        | r + 1 =>
          if 500 ≤ status then requestGo timeoutMs env r (attempt + 1)
          else (.err (parseErrOf status), attempt + 1)
        | 0 => (.err (parseErrOf status), attempt + 1)
      | some json =>
        if !(200 ≤ status && status ≤ 299) then
          -- `!response.ok`: retry iff `status >= 500` and budget left
          match remaining with
          | r + 1 =>
            if 500 ≤ status then requestGo timeoutMs env r (attempt + 1)
            else (.err (httpErrOf status json), attempt + 1)
          | 0 => (.err (httpErrOf status json), attempt + 1)
        else
          match json.data with
          | some d =>
            if d.truthy then (.ok d, attempt + 1)
            else (.err emptyRespErr, attempt + 1)
          | none => (.err emptyRespErr, attempt + 1)

/-- `request(method, path, body)` for a client with retry budget `retries`:
attempts start at 0, so `remaining = retries - 0`. -/
def request (timeoutMs retries : Nat) (env : Nat → FetchResult) : ReqOutcome × Nat :=
  requestGo timeoutMs env retries 0

/-- Base backoff delay in milliseconds before retrying `attempt`:
`Math.min(1000 * 2 ** attempt, 5000)`. -/
def backoffBase (attempt : Nat) : Nat := min (1000 * 2 ^ attempt) 5000

/-- The jittered delay `baseDelay * (0.5 + Math.random() * 0.5)`, with the
value of `Math.random()` (a number in `[0, 1)`) as the `rand` argument.
Modelled over `ℚ`; the double-precision rounding of the source cannot move
the factor outside the interval proved below. -/
def backoffDelay (attempt : Nat) (rand : ℚ) : ℚ :=
  (backoffBase attempt : ℚ) * (1/2 + rand * (1/2))

/-! ## Supporting lemmas -/

theorem splitOnChar_of_not_mem {sep : Char} {l : List Char}
    (h : sep ∉ l) : splitOnChar sep l = [l] := by
  induction l with
  | nil => rfl
  | cons c rest ih =>
    have hc : c ≠ sep := fun hcs => h (hcs ▸ List.mem_cons_self c rest)
    have hr : sep ∉ rest := fun hm => h (List.mem_cons_of_mem c hm)
    simp [splitOnChar, hc, ih hr]

theorem splitOnChar_append {sep : Char} {a rest : List Char}
    (h : sep ∉ a) :
    splitOnChar sep (a ++ sep :: rest) = a :: splitOnChar sep rest := by
  induction a with
  | nil => simp [splitOnChar]
  | cons c t ih =>
    have hc : c ≠ sep := fun hcs => h (hcs ▸ List.mem_cons_self c t)
    have ht : sep ∉ t := fun hm => h (List.mem_cons_of_mem c hm)
    have := ih ht
    simp only [List.cons_append, splitOnChar, if_neg hc, List.append_eq, this]

/-- Splitting a three-segment dotted string whose segments are dot-free. -/
theorem splitOnChar_three {sep : Char} {a b c : List Char}
    (ha : sep ∉ a) (hb : sep ∉ b) (hc : sep ∉ c) :
    splitOnChar sep (a ++ sep :: (b ++ sep :: c)) = [a, b, c] := by
  rw [splitOnChar_append ha, splitOnChar_append hb, splitOnChar_of_not_mem hc]

theorem b64Val_b64Char {i : Nat} (h : i < 64) : b64Val (b64Char i) = i := by
  have : ∀ j < 64, b64Val (b64Char j) = j := by decide
  exact this i h

theorem isB64Char_b64Char {i : Nat} (h : i < 64) : isB64Char (b64Char i) = true := by
  have : ∀ j < 64, isB64Char (b64Char j) = true := by decide
  exact this i h

theorem b64Char_ne_dot {i : Nat} (h : i < 64) : b64Char i ≠ '.' := by
  have : ∀ j < 64, b64Char j ≠ '.' := by decide
  exact this i h

theorem b64Encode_mem_isB64 {bs : List Nat} (hb : ∀ b ∈ bs, b < 256) :
    ∀ c ∈ b64Encode bs, isB64Char c = true := by
  induction bs using b64Encode.induct with
  | case1 => intro c hc; simp [b64Encode] at hc
  | case2 a =>
    intro c hc
    have ha : a < 256 := hb a (by simp)
    simp only [b64Encode, List.mem_cons, List.not_mem_nil, or_false] at hc
    rcases hc with h1 | h2
    · exact h1 ▸ isB64Char_b64Char (by omega)
    · exact h2 ▸ isB64Char_b64Char (by omega)
  | case3 a b =>
    intro c hc
    have ha : a < 256 := hb a (by simp)
    have hbb : b < 256 := hb b (by simp)
    simp only [b64Encode, List.mem_cons, List.not_mem_nil, or_false] at hc
    rcases hc with h1 | h2 | h3
    · exact h1 ▸ isB64Char_b64Char (by omega)
    · exact h2 ▸ isB64Char_b64Char (by omega)
    · exact h3 ▸ isB64Char_b64Char (by omega)
  | case4 a b c rest ih =>
    intro x hx
    have ha : a < 256 := hb a (by simp)
    have hbb : b < 256 := hb b (by simp)
    have hcc : c < 256 := hb c (by simp)
    have hrest : ∀ y ∈ rest, y < 256 := fun y hy => hb y (by simp [hy])
    simp only [b64Encode, List.mem_cons] at hx
    rcases hx with h1 | h2 | h3 | h4 | h5
    · exact h1 ▸ isB64Char_b64Char (by omega)
    · exact h2 ▸ isB64Char_b64Char (by omega)
    · exact h3 ▸ isB64Char_b64Char (by omega)
    · exact h4 ▸ isB64Char_b64Char (by omega)
    · exact ih hrest x h5

theorem b64Encode_no_dot {bs : List Nat} (hb : ∀ b ∈ bs, b < 256) :
    '.' ∉ b64Encode bs := by
  intro hmem
  have := b64Encode_mem_isB64 hb '.' hmem
  simp [isB64Char, b64Alphabet] at this

theorem b64Encode_filter {bs : List Nat} (hb : ∀ b ∈ bs, b < 256) :
    (b64Encode bs).filter isB64Char = b64Encode bs :=
  List.filter_eq_self.mpr (b64Encode_mem_isB64 hb)

theorem b64DecodeChunks_encode {bs : List Nat} (hb : ∀ b ∈ bs, b < 256) :
    b64DecodeChunks (b64Encode bs) = bs := by
  induction bs using b64Encode.induct with
  | case1 => rfl
  | case2 a =>
    have ha : a < 256 := hb a (by simp)
    simp only [b64Encode, b64DecodeChunks,
      b64Val_b64Char (show a / 4 < 64 by omega),
      b64Val_b64Char (show a % 4 * 16 < 64 by omega)]
    congr 1
    omega
  | case3 a b =>
    have ha : a < 256 := hb a (by simp)
    have hbb : b < 256 := hb b (by simp)
    simp only [b64Encode, b64DecodeChunks,
      b64Val_b64Char (show a / 4 < 64 by omega),
      b64Val_b64Char (show a % 4 * 16 + b / 16 < 64 by omega),
      b64Val_b64Char (show b % 16 * 4 < 64 by omega)]
    congr 1
    · omega
    · congr 1
      omega
  | case4 a b c rest ih =>
    have ha : a < 256 := hb a (by simp)
    have hbb : b < 256 := hb b (by simp)
    have hcc : c < 256 := hb c (by simp)
    have hrest : ∀ y ∈ rest, y < 256 := fun y hy => hb y (by simp [hy])
    simp only [b64Encode, b64DecodeChunks,
      b64Val_b64Char (show a / 4 < 64 by omega),
      b64Val_b64Char (show a % 4 * 16 + b / 16 < 64 by omega),
      b64Val_b64Char (show b % 16 * 4 + c / 64 < 64 by omega),
      b64Val_b64Char (show c % 64 < 64 by omega), ih hrest]
    congr 1
    · omega
    · congr 1
      · omega
      · congr 1
        omega

/-- Decoding inverts encoding for genuine byte lists. -/
theorem b64Decode_encode {bs : List Nat} (hb : ∀ b ∈ bs, b < 256) :
    b64Decode (b64Encode bs) = bs := by
  rw [b64Decode, b64Encode_filter hb, b64DecodeChunks_encode hb]

theorem Char.toNat_lt_codepoints (c : Char) : c.toNat < 1114112 := by
  have h := c.valid
  rcases h with h | h
  · have h2 : c.val.toNat < 55296 := h
    simp only [Char.toNat]
    omega
  · exact h.2

theorem utf8EncodeChar_lt {c : Char} : ∀ b ∈ utf8EncodeChar c, b < 256 := by
  have hlt := Char.toNat_lt_codepoints c
  intro b hb
  simp only [utf8EncodeChar] at hb
  split at hb <;> [skip; split at hb] <;> [skip; skip; split at hb] <;>
    simp only [List.mem_cons, List.not_mem_nil, or_false] at hb <;> omega

theorem utf8Encode_lt {s : List Char} : ∀ b ∈ utf8Encode s, b < 256 := by
  induction s with
  | nil => intro b hb; simp [utf8Encode] at hb
  | cons c t ih =>
    intro b hb
    simp only [utf8Encode, List.mem_append] at hb
    rcases hb with hb | hb
    · exact utf8EncodeChar_lt b hb
    · exact ih b hb

/-- Decoding one encoded character consumes one unit of fuel. -/
theorem utf8Decode_encodeChar {c : Char} {rest : List Nat} {fuel : Nat} :
    utf8Decode (fuel + 1) (utf8EncodeChar c ++ rest) = c :: utf8Decode fuel rest := by
  have hlt := Char.toNat_lt_codepoints c
  have hval := c.valid
  simp only [utf8EncodeChar]
  split
  · -- one byte
    next h =>
    simp only [List.cons_append, List.nil_append, List.append_eq, utf8Decode,
      if_pos h, Char.ofNat_toNat]
  · split
    · -- two bytes
      next h1 h2 =>
      simp only [List.cons_append, List.nil_append, List.append_eq, utf8Decode]
      rw [if_neg (by omega), if_neg (by omega), if_pos (by omega)]
      rw [if_pos (by simp [isUtf8Cont]; omega)]
      have : (0xC0 + c.toNat / 64 - 0xC0) * 64 + (0x80 + c.toNat % 64 - 0x80) = c.toNat := by
        omega
      rw [this, Char.ofNat_toNat]
    · split
      · -- three bytes
        next h1 h2 h3 =>
        simp only [List.cons_append, List.nil_append, List.append_eq, utf8Decode]
        rw [if_neg (by omega), if_neg (by omega), if_neg (by omega), if_pos (by omega)]
        rw [if_pos (by simp [isUtf8Cont]; omega)]
        have : (0xE0 + c.toNat / 4096 - 0xE0) * 4096 +
            (0x80 + c.toNat / 64 % 64 - 0x80) * 64 + (0x80 + c.toNat % 64 - 0x80) =
            c.toNat := by omega
        rw [this, Char.ofNat_toNat]
      · -- four bytes
        next h1 h2 h3 =>
        simp only [List.cons_append, List.nil_append, List.append_eq, utf8Decode]
        rw [if_neg (by omega), if_neg (by omega), if_neg (by omega), if_neg (by omega)]
        rw [if_pos (by simp [isUtf8Cont]; omega)]
        have : (0xF0 + c.toNat / 262144 - 0xF0) * 262144 +
            (0x80 + c.toNat / 4096 % 64 - 0x80) * 4096 +
            (0x80 + c.toNat / 64 % 64 - 0x80) * 64 + (0x80 + c.toNat % 64 - 0x80) =
            c.toNat := by omega
        rw [this, Char.ofNat_toNat]

theorem utf8Decode_encode {s : List Char} {fuel : Nat} (h : s.length ≤ fuel) :
    utf8Decode fuel (utf8Encode s) = s := by
  induction s generalizing fuel with
  | nil =>
    cases fuel <;> rfl
  | cons c t ih =>
    simp only [List.length_cons] at h
    obtain ⟨f, rfl⟩ : ∃ f, fuel = f + 1 := ⟨fuel - 1, by omega⟩
    simp only [utf8Encode]
    rw [utf8Decode_encodeChar, ih (by omega)]

theorem length_utf8Encode_ge {s : List Char} : s.length ≤ (utf8Encode s).length := by
  induction s with
  | nil => simp [utf8Encode]
  | cons c t ih =>
    simp only [utf8Encode, List.length_append, List.length_cons]
    have : 1 ≤ (utf8EncodeChar c).length := by
      simp only [utf8EncodeChar]
      split <;> [simp; split <;> [simp; split <;> simp]]
    omega

/-- `buf.toString()` inverts `Buffer.from(string)`. -/
theorem utf8DecodeAll_encode {s : List Char} :
    utf8DecodeAll (utf8Encode s) = s :=
  utf8Decode_encode length_utf8Encode_ge

theorem isDigitCh_digitChar {d : Nat} (h : d < 10) : isDigitCh (digitChar d) = true := by
  have : ∀ j < 10, isDigitCh (digitChar j) = true := by decide
  exact this d h

theorem toNat_digitChar {d : Nat} (h : d < 10) : (digitChar d).toNat = 48 + d := by
  have : ∀ j < 10, (digitChar j).toNat = 48 + j := by decide
  exact this d h

theorem natToDecAux_digits {fuel n : Nat} :
    ∀ c ∈ natToDecAux fuel n, isDigitCh c = true := by
  induction fuel generalizing n with
  | zero => intro c hc; simp [natToDecAux] at hc
  | succ f ih =>
    intro c hc
    simp only [natToDecAux] at hc
    split at hc
    · simp only [List.mem_singleton] at hc
      subst hc
      exact isDigitCh_digitChar (by omega)
    · simp only [List.mem_append, List.mem_singleton] at hc
      rcases hc with hc | hc
      · exact ih c hc
      · subst hc
        exact isDigitCh_digitChar (by omega)

theorem natToDec_digits {n : Nat} : ∀ c ∈ natToDec n, isDigitCh c = true :=
  natToDecAux_digits

theorem natToDecAux_ne_nil {fuel n : Nat} (h : 0 < fuel) : natToDecAux fuel n ≠ [] := by
  obtain ⟨f, rfl⟩ : ∃ f, fuel = f + 1 := ⟨fuel - 1, by omega⟩
  simp only [natToDecAux]
  split
  · simp
  · simp

theorem natToDec_ne_nil {n : Nat} : natToDec n ≠ [] :=
  natToDecAux_ne_nil (by omega)

/-- The digit-run step function used by `parseDigits`. -/
def digitStep (a : Nat) (c : Char) : Nat := a * 10 + (c.toNat - 48)

theorem parseDigits_append {ds : List Char} (hds : ∀ c ∈ ds, isDigitCh c = true) :
    ∀ {rest : List Char}, (∀ c, rest.head? = some c → isDigitCh c = false) →
    ∀ acc, parseDigits (ds ++ rest) acc = (ds.foldl digitStep acc, rest) := by
  induction ds with
  | nil =>
    intro rest hrest acc
    cases rest with
    | nil => rfl
    | cons c t =>
      have := hrest c rfl
      simp [parseDigits, this]
  | cons d t ih =>
    intro rest hrest acc
    have hd : isDigitCh d = true := hds d (by simp)
    have ht : ∀ c ∈ t, isDigitCh c = true := fun c hc => hds c (by simp [hc])
    simp only [List.cons_append, parseDigits, hd, if_pos, List.append_eq]
    rw [ih ht hrest]
    rfl

theorem natToDecAux_foldl {fuel : Nat} :
    ∀ {n : Nat}, n < 10 ^ fuel → ∀ acc,
      (natToDecAux fuel n).foldl digitStep acc =
        acc * 10 ^ (natToDecAux fuel n).length + n := by
  induction fuel with
  | zero =>
    intro n hn acc
    interval_cases n
    simp [natToDecAux]
  | succ f ih =>
    intro n hn acc
    simp only [natToDecAux]
    split
    · next h =>
      simp only [List.foldl_cons, List.foldl_nil, List.length_singleton, pow_one,
        digitStep, toNat_digitChar (show n < 10 by omega)]
      omega
    · next h =>
      have hdiv : n / 10 < 10 ^ f := by
        have hp : 10 ^ (f + 1) = 10 ^ f * 10 := pow_succ 10 f
        omega
      rw [List.foldl_append, ih hdiv]
      simp only [List.foldl_cons, List.foldl_nil, List.length_append,
        List.length_singleton, digitStep, toNat_digitChar (show n % 10 < 10 by omega)]
      have hp : 10 ^ ((natToDecAux f (n / 10)).length + 1) =
          10 ^ (natToDecAux f (n / 10)).length * 10 := pow_succ _ _
      rw [hp]
      have hmod : n % 10 + 10 * (n / 10) = n := Nat.mod_add_div n 10
      ring_nf
      omega

theorem natToDec_foldl {n : Nat} : (natToDec n).foldl digitStep 0 = n := by
  have h := @natToDecAux_foldl (n + 1) n
    (Nat.lt_of_lt_of_le (Nat.lt_succ_self n) (by
      calc n + 1 ≤ 2 ^ (n + 1) :=
            Nat.succ_le_of_lt (Nat.lt_of_lt_of_le (Nat.lt_two_pow n)
              (Nat.pow_le_pow_right (by omega) (by omega)))
      _ ≤ 10 ^ (n + 1) := Nat.pow_le_pow_left (by omega) _)) 0
  simpa [natToDec] using h

/-- Parsing the decimal rendering of `n` followed by a non-digit recovers
`n` and leaves the rest untouched. -/
theorem parseDigits_natToDec {n : Nat} {rest : List Char}
    (hrest : ∀ c, rest.head? = some c → isDigitCh c = false) :
    parseDigits (natToDec n ++ rest) 0 = (n, rest) := by
  rw [parseDigits_append natToDec_digits hrest 0, natToDec_foldl]

theorem parseIntLit_natToDec {n : Nat} {c : Char} {rest : List Char}
    (hc : isDigitCh c = false) (hdot : c ≠ '.') (he : c ≠ 'e') (hE : c ≠ 'E') :
    parseIntLit (natToDec n ++ c :: rest) = some ((n : Int), c :: rest) := by
  obtain ⟨d, ds, hd⟩ : ∃ d ds, natToDec n = d :: ds := by
    cases h : natToDec n with
    | nil => exact absurd h natToDec_ne_nil
    | cons d ds => exact ⟨d, ds, rfl⟩
  have hddig : isDigitCh d = true := natToDec_digits d (hd ▸ List.mem_cons_self d ds)
  have hdig : parseDigits (natToDec n ++ c :: rest) 0 = (n, c :: rest) :=
    parseDigits_natToDec (fun x hx => by
      simp only [List.head?_cons, Option.some.injEq] at hx
      exact hx ▸ hc)
  have hdne : d ≠ '-' := by
    intro h
    rw [h] at hddig
    simp [isDigitCh] at hddig
  rw [hd] at hdig ⊢
  simp only [List.cons_append] at hdig ⊢
  rw [show (d :: (ds ++ c :: rest)) = d :: (ds ++ c :: rest) from rfl]
  unfold parseIntLit
  split
  · next c2 rest2 heq =>
    -- pattern `'-' :: c2 :: rest2`
    exfalso
    have : d = '-' := by
      have := heq
      injection this with h1 _
    exact hdne this
  · next c2 rest2 heq =>
    injection heq with h1 h2
    subst h1
    subst h2
    rw [if_pos hddig]
    have : parseDigits (d :: (ds ++ c :: rest)) 0 = (n, c :: rest) := by
      simpa using hdig
    rw [this]
    simp [hdot, he, hE, hc]
  · next heq => exact absurd heq (by simp)

theorem skipWs_cons {c : Char} {rest : List Char} (h : isJsonWs c = false) :
    skipWs (c :: rest) = c :: rest := by
  simp [skipWs, h]

theorem hexVal_digitChar {m : Nat} (h : m < 10) : hexVal (digitChar m) = some m := by
  have : ∀ j < 10, hexVal (digitChar j) = some j := by decide
  exact this m h

theorem hexVal_letter {m : Nat} (h1 : 10 ≤ m) (h2 : m < 16) :
    hexVal (Char.ofNat (87 + m)) = some m := by
  have : ∀ j < 16, 10 ≤ j → hexVal (Char.ofNat (87 + j)) = some j := by decide
  exact this m h2 h1

theorem parseStringBody_cons_plain {c : Char} (h1 : ¬c = '"') (h2 : ¬c = '\\')
    (h3 : ¬c.toNat < 32) (rest : List Char) :
    parseStringBody (c :: rest) = (parseStringBody rest).map fun r => (c :: r.1, r.2) := by
  rw [parseStringBody.eq_def]
  split
  · next heq => exact absurd heq (by simp)
  · next heq =>
    injection heq with hh _
    exact absurd hh h1
  · next heq =>
    injection heq with hh _
    exact absurd hh h2
  · next heq =>
    injection heq with hh _
    exact absurd hh h2
  · next heq =>
    injection heq with hh ht
    subst hh
    subst ht
    rw [if_neg h3]

/-- Parsing a string body inverts `JSON.stringify` escaping: the escaped
rendering of `cs` followed by the closing quote parses back to `cs`. -/
theorem parseStringBody_escape : ∀ (cs rest : List Char),
    parseStringBody (jsonEscape cs ++ '"' :: rest) = some (cs, rest) := by
  intro cs
  induction cs with
  | nil =>
    intro rest
    simp [jsonEscape, parseStringBody]
  | cons c t ih =>
    intro rest
    simp only [jsonEscape, List.append_assoc]
    by_cases hq : c = '"'
    · subst hq
      simp [jsonEscapeChar, parseStringBody, ih]
    · by_cases hb : c = '\\'
      · subst hb
        simp [jsonEscapeChar, parseStringBody, ih]
      · by_cases hn : c = '\n'
        · subst hn
          simp [jsonEscapeChar, parseStringBody, ih]
        · by_cases hr : c.toNat = 13
          · have hc : c = Char.ofNat 13 := by rw [← hr, Char.ofNat_toNat]
            subst hc
            simp [jsonEscapeChar, parseStringBody, ih]
          · by_cases hT : c = '\t'
            · subst hT
              simp [jsonEscapeChar, parseStringBody, ih]
            · by_cases h8 : c.toNat = 8
              · have hc : c = Char.ofNat 8 := by rw [← h8, Char.ofNat_toNat]
                subst hc
                simp [jsonEscapeChar, parseStringBody, ih]
              · by_cases h12 : c.toNat = 12
                · have hc : c = Char.ofNat 12 := by rw [← h12, Char.ofNat_toNat]
                  subst hc
                  simp [jsonEscapeChar, parseStringBody, ih]
                · by_cases hctl : c.toNat < 32
                  · -- generic control character: `\u00XY`
                    have hesc : jsonEscapeChar c =
                        ['\\', 'u', '0', '0', digitChar (c.toNat / 16),
                         if c.toNat % 16 < 10 then digitChar (c.toNat % 16)
                         else Char.ofNat (87 + c.toNat % 16)] := by
                      rw [jsonEscapeChar]
                      rw [if_neg hq, if_neg hb, if_neg hn, if_neg hr, if_neg hT,
                        if_neg h8, if_neg h12, if_pos hctl]
                    rw [hesc]
                    have h3v : hexVal (digitChar (c.toNat / 16)) = some (c.toNat / 16) :=
                      hexVal_digitChar (by omega)
                    have h4v : hexVal (if c.toNat % 16 < 10 then digitChar (c.toNat % 16)
                        else Char.ofNat (87 + c.toNat % 16)) = some (c.toNat % 16) := by
                      split
                      · exact hexVal_digitChar (by omega)
                      · next hge => exact hexVal_letter (by omega) (by omega)
                    simp only [List.cons_append, List.nil_append, parseStringBody]
                    rw [show hexVal '0' = some 0 from rfl, h3v, h4v]
                    simp only [ih, Option.map_some']
                    rw [show 0 * 4096 + 0 * 256 + c.toNat / 16 * 16 + c.toNat % 16 =
                      c.toNat by omega, Char.ofNat_toNat]
                    simp [ih]
                  · -- plain character
                    have hesc : jsonEscapeChar c = [c] := by
                      rw [jsonEscapeChar]
                      rw [if_neg hq, if_neg hb, if_neg hn, if_neg hr, if_neg hT,
                        if_neg h8, if_neg h12, if_neg hctl]
                    rw [hesc]
                    simp only [List.cons_append, List.nil_append]
                    rw [parseStringBody_cons_plain hq hb hctl, ih]
                    rfl


theorem digit_not_ws {c : Char} (hd : isDigitCh c = true) : isJsonWs c = false := by
  have hb : ∀ m < 58, 48 ≤ m → isJsonWs (Char.ofNat m) = false := by decide
  have hn : 48 ≤ c.toNat ∧ c.toNat ≤ 57 := by simpa [isDigitCh] using hd
  have := hb c.toNat (by omega) (by omega)
  rwa [Char.ofNat_toNat] at this

theorem parseJv_nat {fuel : Nat} {n : Nat} {c : Char} {rest : List Char}
    (hc : isDigitCh c = false) (hdot : c ≠ '.') (he : c ≠ 'e') (hE : c ≠ 'E') :
    parseJv (fuel + 1) (natToDec n ++ c :: rest) = some (Jv.jnum (n : Int), c :: rest) := by
  obtain ⟨d, ds, hd⟩ : ∃ d ds, natToDec n = d :: ds := by
    cases h : natToDec n with
    | nil => exact absurd h natToDec_ne_nil
    | cons d ds => exact ⟨d, ds, rfl⟩
  have hddig : isDigitCh d = true := natToDec_digits d (hd ▸ List.mem_cons_self d ds)
  have hdigits : ∀ m < 58, 48 ≤ m →
      Char.ofNat m ≠ '{' ∧ Char.ofNat m ≠ '[' ∧ Char.ofNat m ≠ '"' ∧
      Char.ofNat m ≠ 't' ∧ Char.ofNat m ≠ 'f' ∧ Char.ofNat m ≠ 'n' := by decide
  have hn48 : 48 ≤ d.toNat ∧ d.toNat ≤ 57 := by simpa [isDigitCh] using hddig
  have hfacts := hdigits d.toNat (by omega) (by omega)
  rw [Char.ofNat_toNat] at hfacts
  rw [hd, List.cons_append, parseJv]
  rw [skipWs_cons (digit_not_ws hddig)]
  dsimp only
  rw [if_neg hfacts.1, if_neg hfacts.2.1, if_neg hfacts.2.2.1,
    if_neg hfacts.2.2.2.1, if_neg hfacts.2.2.2.2.1, if_neg hfacts.2.2.2.2.2]
  have := @parseIntLit_natToDec n c rest hc hdot he hE
  rw [hd, List.cons_append] at this
  rw [this]
  rfl

theorem strOfChars_data (s : String) : strOfChars s.data = s := rfl

theorem parseJv_obj {fuel : Nat} {rest : List Char} :
    parseJv (fuel + 1) ('{' :: rest) = parseMembers fuel rest := by
  rw [parseJv]
  simp [skipWs, isJsonWs]

theorem parseJv_str {fuel : Nat} {rest : List Char} :
    parseJv (fuel + 1) ('"' :: rest) =
      (parseStringBody rest).map fun r => (Jv.jstr (strOfChars r.1), r.2) := by
  rw [parseJv]
  simp [skipWs, isJsonWs]

theorem parseMembers_quote {fuel : Nat} {rest : List Char} :
    parseMembers (fuel + 1) ('"' :: rest) = parseMembersLoop fuel ('"' :: rest) [] := by
  rw [parseMembers]
  simp [skipWs, isJsonWs]

/-- `JSON.parse` on the minted payload recovers exactly the payload object. -/
theorem parseJv_payload (pid : String) (iat expiry : Nat) (f : Nat) :
    parseJv (f + 9) (payloadJsonChars pid iat expiry) =
      some (payloadJv pid iat expiry, []) := by
  have hshape : payloadJsonChars pid iat expiry =
      '{' :: '"' :: 'p' :: 'r' :: 'o' :: 'g' :: 'r' :: 'a' :: 'm' :: 'I' :: 'd' :: '"' :: ':' :: '"' ::
        (jsonEscape pid.data ++ '"' :: ',' :: '"' :: 's' :: 'c' :: 'o' :: 'p' :: 'e' :: 's' :: '"' :: ':' ::
          '[' :: '"' :: 's' :: 'e' :: 'r' :: 'v' :: 'i' :: 'c' :: 'e' :: ':' :: 'r' :: 'e' :: 'l' :: 'a' :: 'y' :: '"' :: ']' :: ',' ::
          '"' :: 'i' :: 'a' :: 't' :: '"' :: ':' ::
          (natToDec iat ++ ',' :: '"' :: 'e' :: 'x' :: 'p' :: '"' :: ':' ::
            (natToDec expiry ++ ['}']))) := by
    simp only [payloadJsonChars, List.append_assoc]
    rfl
  rw [hshape]
  generalize hT2 : natToDec expiry ++ ['}'] = T2
  generalize hT1 : natToDec iat ++ ',' :: '"' :: 'e' :: 'x' :: 'p' :: '"' :: ':' :: T2 = T1
  have hE : parseJv (f + 3) T2 = some (Jv.jnum (expiry : Int), ['}']) := by
    rw [← hT2]
    exact parseJv_nat (by decide) (by decide) (by decide) (by decide)
  have hI : parseJv (f + 4) T1 =
      some (Jv.jnum (iat : Int), ',' :: '"' :: 'e' :: 'x' :: 'p' :: '"' :: ':' :: T2) := by
    rw [← hT1, ← hT2]
    exact parseJv_nat (by decide) (by decide) (by decide) (by decide)
  have hPid : parseJv (f + 6) ('"' :: (jsonEscape pid.data ++ '"' :: ',' :: '"' :: 's' :: 'c' :: 'o' :: 'p' :: 'e' :: 's' :: '"' :: ':' ::
      '[' :: '"' :: 's' :: 'e' :: 'r' :: 'v' :: 'i' :: 'c' :: 'e' :: ':' :: 'r' :: 'e' :: 'l' :: 'a' :: 'y' :: '"' :: ']' :: ',' ::
      '"' :: 'i' :: 'a' :: 't' :: '"' :: ':' :: T1)) =
      some (Jv.jstr pid, ',' :: '"' :: 's' :: 'c' :: 'o' :: 'p' :: 'e' :: 's' :: '"' :: ':' ::
      '[' :: '"' :: 's' :: 'e' :: 'r' :: 'v' :: 'i' :: 'c' :: 'e' :: ':' :: 'r' :: 'e' :: 'l' :: 'a' :: 'y' :: '"' :: ']' :: ',' ::
      '"' :: 'i' :: 'a' :: 't' :: '"' :: ':' :: T1) := by
    rw [show (f + 6) = (f + 5) + 1 from rfl, parseJv_str, parseStringBody_escape]
    rfl
  have hScopes : parseJv (f + 5) ('[' :: '"' :: 's' :: 'e' :: 'r' :: 'v' :: 'i' :: 'c' :: 'e' :: ':' ::
      'r' :: 'e' :: 'l' :: 'a' :: 'y' :: '"' :: ']' :: ',' :: '"' :: 'i' :: 'a' :: 't' :: '"' :: ':' :: T1) =
      some (Jv.jarr [Jv.jstr "service:relay"], ',' :: '"' :: 'i' :: 'a' :: 't' :: '"' :: ':' :: T1) := by
    simp [parseJv, parseElems, parseElemsLoop, parseStringBody, skipWs, isJsonWs, strOfChars]
  rw [show (f + 9) = (f + 8) + 1 from rfl, parseJv_obj]
  rw [show (f + 8) = (f + 7) + 1 from rfl, parseMembers_quote]
  rw [show (f + 7) = (f + 6) + 1 from rfl, parseMembersLoop]
  simp [skipWs, isJsonWs, parseStringBody, hPid, strOfChars]
  rw [show (f + 6) = (f + 5) + 1 from rfl, parseMembersLoop]
  simp [skipWs, isJsonWs, parseStringBody, hScopes, strOfChars]
  rw [show (f + 5) = (f + 4) + 1 from rfl, parseMembersLoop]
  simp [skipWs, isJsonWs, parseStringBody, hI, strOfChars]
  rw [show (f + 4) = (f + 3) + 1 from rfl, parseMembersLoop]
  simp [skipWs, isJsonWs, parseStringBody, hE, strOfChars, payloadJv]

/-- `JSON.parse` of the full minted payload string. -/
theorem jsonParse_payload (pid : String) (iat expiry : Nat) :
    jsonParse (payloadJsonChars pid iat expiry) = some (payloadJv pid iat expiry) := by
  have hlen : 2 ≤ (payloadJsonChars pid iat expiry).length := by
    simp only [payloadJsonChars, List.length_append, List.length_cons, List.length_nil]
    omega
  obtain ⟨k, hk⟩ : ∃ k, 3 * (payloadJsonChars pid iat expiry).length + 3 = k + 9 :=
    ⟨3 * (payloadJsonChars pid iat expiry).length - 6, by omega⟩
  rw [jsonParse, hk, parseJv_payload]
  simp [skipWs]

/-- The expiry check on a freshly minted token is exactly the comparison
`exp <= now + bufferSeconds` on the embedded `exp = now + ttlSeconds`:
the token splits into its three segments (the signature is dot-free), the
payload decodes and parses back to the payload object, and its `exp` field
is an integer. -/
theorem isTokenExpired_mint (sig pid : String) (ttlSeconds now bufferSeconds nowCheck : Nat)
    (hsig : '.' ∉ sig.data) :
    isTokenExpired (mintServiceJwt sig pid ttlSeconds now) bufferSeconds nowCheck =
      decide (now + ttlSeconds ≤ nowCheck + bufferSeconds) := by
  rw [isTokenExpired, mintServiceJwt]
  have hdata : (String.mk (b64Encode (utf8Encode "\x7b\"alg\":\"HS256\",\"typ\":\"JWT\"\x7d".data) ++
      '.' :: b64Encode (utf8Encode (payloadJsonChars pid now (now + ttlSeconds))) ++
      '.' :: sig.data)).data =
      b64Encode (utf8Encode "\x7b\"alg\":\"HS256\",\"typ\":\"JWT\"\x7d".data) ++
      '.' :: (b64Encode (utf8Encode (payloadJsonChars pid now (now + ttlSeconds))) ++
      '.' :: sig.data) := by
    simp
  rw [hdata]
  rw [splitOnChar_three
    (by decide)
    (b64Encode_no_dot utf8Encode_lt)
    hsig]
  dsimp only
  rw [b64Decode_encode utf8Encode_lt, utf8DecodeAll_encode, jsonParse_payload]
  simp only [payloadJv, expRead, jsObjGet, List.foldl_cons, List.foldl_nil]
  norm_num [jsLeNum, jsToNumber]
  omega

/-! ## Claim theorems -/

/-- Every accepted configuration provides at least one auth source, and a
truthy `jwtSecret` forces a truthy `programId` (the two constructor
checks). -/
theorem relayClientCtor_auth {config : RelayClientConfig} {cfg : ResolvedConfig}
    (h : relayClientCtor config = .ok cfg) :
    (cfg.accessTokenFn.isSome = true ∨ optTruthy cfg.jwtSecret = true ∨
      optTruthy cfg.relayUrl = true) ∧
    (optTruthy cfg.jwtSecret = true → optTruthy cfg.programId = true) := by
  unfold relayClientCtor at h
  dsimp only at h
  split at h
  · exact absurd h (by simp)
  · next h1 =>
    split at h
    · exact absurd h (by simp)
    · next h2 =>
      injection h with hcfg
      subst hcfg
      simp only [Bool.not_eq_true] at h1 h2
      dsimp only
      constructor
      · cases hA : config.accessTokenFn.isSome <;>
          cases hJ : optTruthy config.jwtSecret <;>
            cases hR : optTruthy config.relayUrl <;> simp_all
      · intro hj
        cases hP : optTruthy config.programId <;> simp_all

/-- When the legacy credentials are configured, `getToken` always succeeds
(cache hit or fresh mint); the `CONFIG_ERROR` throw is not reached. -/
theorem getToken_ok {cfg : ResolvedConfig} (cached : Option String) (sig : String)
    (now : Nat) (hj : optTruthy cfg.jwtSecret = true)
    (hp : optTruthy cfg.programId = true) :
    ∃ t c2, getToken cfg cached sig now = .ok (t, c2) := by
  unfold getToken
  split
  · exact ⟨_, _, rfl⟩
  · unfold getToken.getTokenMint
    rw [if_neg (by simp [hj, hp])]
    exact ⟨_, _, rfl⟩

/-- `buildRequest` never fails for a constructor-accepted configuration. -/
theorem buildRequest_ok {config : RelayClientConfig} {cfg : ResolvedConfig}
    (h : relayClientCtor config = .ok cfg) (cached : Option String) (sig : String)
    (now : Nat) (path : String) :
    ∃ r c2, buildRequest cfg cached sig now path = .ok (r, c2) ∧
      r.url = (if optTruthy cfg.relayUrl then cfg.relayUrl.getD "" ++ path
               else cfg.janusUrl.getD DEFAULT_JANUS_URL ++ "/api/relay" ++ path) := by
  obtain ⟨hauth, hlegacy⟩ := relayClientCtor_auth h
  unfold buildRequest
  by_cases hr : optTruthy cfg.relayUrl = true
  · rw [if_pos hr, if_pos hr]
    cases cfg.accessTokenFn with
    | some tok => exact ⟨_, _, rfl, rfl⟩
    | none =>
      dsimp only
      by_cases hik : optTruthy cfg.internalKey = true
      · rw [if_pos hik]
        exact ⟨_, _, rfl, rfl⟩
      · rw [if_neg hik]
        exact ⟨_, _, rfl, rfl⟩
  · rw [if_neg hr, if_neg hr]
    cases hfn : cfg.accessTokenFn with
    | some tok => exact ⟨_, _, rfl, rfl⟩
    | none =>
      have hj : optTruthy cfg.jwtSecret = true := by
        rcases hauth with ha | hj | hrel
        · rw [hfn] at ha
          simp at ha
        · exact hj
        · exact absurd hrel hr
      obtain ⟨t, c2, htok⟩ := getToken_ok cached sig now hj (hlegacy hj)
      rw [htok]
      exact ⟨_, _, rfl, by simp [RELAY_API_PATH]⟩

/-- C5: for every configured client and path, direct mode targets
`{relayUrl}{path}` exactly and gateway mode targets
`{janusUrl or default}/api/relay{path}` exactly. -/
theorem c5_request_urls (config : RelayClientConfig) (cfg : ResolvedConfig)
    (h : relayClientCtor config = .ok cfg) (cached : Option String) (sig : String)
    (now : Nat) (path : String) :
    ∃ r c2, buildRequest cfg cached sig now path = .ok (r, c2) ∧
      r.url = (if optTruthy cfg.relayUrl then cfg.relayUrl.getD "" ++ path
               else cfg.janusUrl.getD DEFAULT_JANUS_URL ++ "/api/relay" ++ path) :=
  buildRequest_ok h cached sig now path

/-- The direct-mode configuration used by the closed witnesses. -/
def cfgDirect : ResolvedConfig :=
  { accessTokenFn := none, janusUrl := none, relayUrl := some "http://localhost:3001"
    internalKey := some "test-key", jwtSecret := none, programId := none
    tokenTtlSeconds := 300, retries := 2, timeoutMs := 10000, sourceService := "unknown" }

/-- The legacy configuration used by the closed witnesses. -/
def cfgLegacy : ResolvedConfig :=
  { accessTokenFn := none, janusUrl := none, relayUrl := none
    internalKey := none, jwtSecret := some "secret", programId := some "test-org"
    tokenTtlSeconds := 300, retries := 2, timeoutMs := 10000, sourceService := "test-org" }

/-- C5 witness: the direct-mode client built from `{relayUrl, internalKey}`
targets `{relayUrl}/send`. -/
theorem c5_witness :
    ∃ r c2, buildRequest cfgDirect none "SIG" 0 "/send" = .ok (r, c2) ∧
      r.url = (if optTruthy cfgDirect.relayUrl then cfgDirect.relayUrl.getD "" ++ "/send"
               else cfgDirect.janusUrl.getD DEFAULT_JANUS_URL ++ "/api/relay" ++ "/send") :=
  c5_request_urls { relayUrl := some "http://localhost:3001", internalKey := some "test-key" }
    cfgDirect rfl none "SIG" 0 "/send"

def hasHeader (headers : List (String × String)) (k : String) : Bool :=
  (headers.map Prod.fst).contains k

/-- C6: the built header set never carries both `Authorization` and
`X-Internal-Key`; in direct mode the access-token supplier is preferred,
else the internal key, else no auth header. -/
theorem c6_auth_headers (cfg : ResolvedConfig) (cached : Option String) (sig : String)
    (now : Nat) (path : String) (r : BuiltRequest) (c2 : Option String)
    (h : buildRequest cfg cached sig now path = .ok (r, c2)) :
    ¬(hasHeader r.headers "Authorization" = true ∧
      hasHeader r.headers "X-Internal-Key" = true) ∧
    (optTruthy cfg.relayUrl = true →
      (∀ tok, cfg.accessTokenFn = some tok →
        r.headers = [("Authorization", "Bearer " ++ tok)]) ∧
      (cfg.accessTokenFn = none → optTruthy cfg.internalKey = true →
        r.headers = [("X-Internal-Key", cfg.internalKey.getD "")]) ∧
      (cfg.accessTokenFn = none → optTruthy cfg.internalKey = false →
        r.headers = [])) := by
  unfold buildRequest at h
  by_cases hr : optTruthy cfg.relayUrl = true
  · rw [if_pos hr] at h
    dsimp only at h
    cases hfn : cfg.accessTokenFn with
    | some tok =>
      rw [hfn] at h
      injection h with h1
      injection h1 with hreq hcache
      subst hreq
      refine ⟨by simp [hasHeader], fun _ => ⟨?_, ?_, ?_⟩⟩
      · intro t ht
        injection ht with ht
        subst ht
        rfl
      · intro hnone
        exact absurd hnone (by simp)
      · intro hnone
        exact absurd hnone (by simp)
    | none =>
      rw [hfn] at h
      dsimp only at h
      by_cases hik : optTruthy cfg.internalKey = true
      · rw [if_pos hik] at h
        injection h with h1
        injection h1 with hreq hcache
        subst hreq
        refine ⟨by simp [hasHeader], fun _ => ⟨?_, ?_, ?_⟩⟩
        · intro t ht
          exact absurd ht (by simp)
        · intro _ _
          rfl
        · intro _ hik2
          rw [hik2] at hik
          exact absurd hik (by simp)
      · rw [if_neg hik] at h
        injection h with h1
        injection h1 with hreq hcache
        subst hreq
        refine ⟨by simp [hasHeader], fun _ => ⟨?_, ?_, ?_⟩⟩
        · intro t ht
          exact absurd ht (by simp)
        · intro _ hik2
          rw [hik2] at hik
          exact absurd hik (by simp)
        · intro _ _
          rfl
  · rw [if_neg hr] at h
    dsimp only at h
    cases hfn : cfg.accessTokenFn with
    | some tok =>
      rw [hfn] at h
      injection h with h1
      injection h1 with hreq hcache
      subst hreq
      exact ⟨by simp [hasHeader], fun hrt => absurd hrt hr⟩
    | none =>
      rw [hfn] at h
      cases htok : getToken cfg cached sig now with
      | error e =>
        rw [htok] at h
        exact absurd h (by simp [Except.map])
      | ok tc =>
        rw [htok] at h
        simp only [Except.map] at h
        injection h with h1
        injection h1 with hreq hcache
        subst hreq
        exact ⟨by simp [hasHeader], fun hrt => absurd hrt hr⟩

/-- C6 witness: direct mode with only an internal key sends exactly the
`X-Internal-Key` header. -/
theorem c6_witness :
    ¬(hasHeader [("X-Internal-Key", "test-key")] "Authorization" = true ∧
      hasHeader [("X-Internal-Key", "test-key")] "X-Internal-Key" = true) ∧
    (optTruthy cfgDirect.relayUrl = true →
      (∀ tok, cfgDirect.accessTokenFn = some tok →
        [("X-Internal-Key", "test-key")] = [("Authorization", "Bearer " ++ tok)]) ∧
      (cfgDirect.accessTokenFn = none → optTruthy cfgDirect.internalKey = true →
        [("X-Internal-Key", "test-key")] = [("X-Internal-Key", cfgDirect.internalKey.getD "")]) ∧
      (cfgDirect.accessTokenFn = none → optTruthy cfgDirect.internalKey = false →
        [("X-Internal-Key", "test-key")] = [])) :=
  c6_auth_headers cfgDirect none "SIG" 0 "/send"
    { url := "http://localhost:3001/send", headers := [("X-Internal-Key", "test-key")] }
    none rfl

/-- C9: for every constructor-accepted configuration resolving to legacy
self-signed auth (no truthy relayUrl, no accessTokenFn), `getToken` always
returns a token — the `CONFIG_ERROR` branch is unreachable. -/
theorem c9_config_error_unreachable (config : RelayClientConfig) (cfg : ResolvedConfig)
    (h : relayClientCtor config = .ok cfg)
    (hr : optTruthy cfg.relayUrl = false) (hfn : cfg.accessTokenFn = none)
    (cached : Option String) (sig : String) (now : Nat) :
    ∃ t c2, getToken cfg cached sig now = .ok (t, c2) := by
  obtain ⟨hauth, hlegacy⟩ := relayClientCtor_auth h
  have hj : optTruthy cfg.jwtSecret = true := by
    rcases hauth with ha | hj | hrel
    · rw [hfn] at ha
      simp at ha
    · exact hj
    · rw [hr] at hrel
      exact absurd hrel (by simp)
  exact getToken_ok cached sig now hj (hlegacy hj)

/-- C9 witness: the legacy `{jwtSecret, programId}` client mints a token. -/
theorem c9_witness : ∃ t c2, getToken cfgLegacy none "SIG" 1000 = .ok (t, c2) :=
  c9_config_error_unreachable { jwtSecret := some "secret", programId := some "test-org" }
    cfgLegacy rfl rfl rfl none "SIG" 1000

/-- C7: the jittered backoff delay before retrying attempt `a` is
`min(1000 * 2 ^ a, 5000)` milliseconds scaled by the factor
`0.5 + rand * 0.5`, which lies in the closed interval `[1/2, 1]` for every
value `rand` of `Math.random()` (i.e. `0 ≤ rand < 1`). -/
theorem c7_backoff_delay (a : Nat) (rand : ℚ) (h0 : 0 ≤ rand) (h1 : rand < 1) :
    backoffDelay a rand = ((min (1000 * 2 ^ a) 5000 : Nat) : ℚ) * (1/2 + rand * (1/2)) ∧
    1/2 ≤ 1/2 + rand * (1/2) ∧ 1/2 + rand * (1/2) ≤ 1 :=
  ⟨rfl, by linarith, by linarith⟩

/-- C7 witness at attempt 2 with `Math.random() = 1/3`. -/
theorem c7_witness :
    (0 ≤ (1/3 : ℚ)) ∧ ((1/3 : ℚ) < 1) ∧
    (backoffDelay 2 (1/3) = ((min (1000 * 2 ^ 2) 5000 : Nat) : ℚ) * (1/2 + (1/3) * (1/2)) ∧
     1/2 ≤ 1/2 + (1/3 : ℚ) * (1/2) ∧ 1/2 + (1/3 : ℚ) * (1/2) ≤ 1) :=
  ⟨by norm_num, by norm_num, c7_backoff_delay 2 (1/3) (by norm_num) (by norm_num)⟩

/-- C10: a 2xx response whose envelope holds a falsy `data` value (0,
false, "", null) makes `request` raise `EMPTY_RESPONSE` with status 500 on
the first attempt — payload presence is tested by truthiness. -/
theorem c10_empty_response_on_falsy_data (timeoutMs retries : Nat)
    (env : Nat → FetchResult) (status : Nat) (body : ApiBody) (v : Jv)
    (henv : env 0 = .replied status (some body))
    (h200 : 200 ≤ status) (h299 : status ≤ 299)
    (hdata : body.data = some v) (hfalsy : v.truthy = false) :
    request timeoutMs retries env =
      (.err { message := "InsureRelay returned success but no data",
              statusCode := 500, code := some "EMPTY_RESPONSE" }, 1) := by
  rw [request, requestGo, henv]
  dsimp only
  rw [if_neg (by simp [h200, h299]), hdata]
  dsimp only
  rw [hfalsy]
  cases retries <;> rfl

/-- C10 witness: `data: 0` on a 200 response raises `EMPTY_RESPONSE`. -/
theorem c10_witness :
    request 10000 2 (fun _ => .replied 200 (some { data := some (Jv.jnum 0) })) =
      (.err { message := "InsureRelay returned success but no data",
              statusCode := 500, code := some "EMPTY_RESPONSE" }, 1) :=
  c10_empty_response_on_falsy_data 10000 2 _ 200 _ (Jv.jnum 0) rfl (by omega) (by omega) rfl rfl

/-- Each run makes at most `attempt + remaining + 1` outbound calls counted
from attempt number `attempt`. -/
theorem requestGo_calls_le (timeoutMs : Nat) (env : Nat → FetchResult) :
    ∀ (remaining attempt : Nat),
      (requestGo timeoutMs env remaining attempt).2 ≤ attempt + remaining + 1 := by
  intro remaining
  induction remaining with
  | zero =>
    intro attempt
    rw [requestGo]
    rcases env attempt with ⟨t, m⟩ | ⟨status, body⟩
    · dsimp only
      omega
    · rcases body with _ | json
      · dsimp only
        omega
      · dsimp only
        split
        · dsimp only
          omega
        · split
          · split
            · dsimp only
              omega
            · dsimp only
              omega
          · dsimp only
            omega
  | succ rem ih =>
    intro attempt
    have hih := ih (attempt + 1)
    rw [requestGo]
    rcases env attempt with ⟨t, m⟩ | ⟨status, body⟩
    · dsimp only
      omega
    · rcases body with _ | json
      · dsimp only
        split
        · omega
        · dsimp only
          omega
      · dsimp only
        split
        · split
          · omega
          · dsimp only
            omega
        · split
          · split
            · dsimp only
              omega
            · dsimp only
              omega
          · dsimp only
            omega

/-- The attempt sequence used by the C2 counterexample and witness:
attempt 0 answers 500 with a JSON error body, every later attempt answers
200 with a data payload. -/
def env500then200 : Nat → FetchResult := fun n =>
  if n = 0 then .replied 500 (some { error := some "Internal error" })
  else .replied 200 (some { data := some (Jv.jstr "ok") })

/-- The attempt sequence answering 422 with a service-reported error. -/
def env422 : Nat → FetchResult := fun _ =>
  .replied 422 (some { error := some "VALIDATION_ERROR", details := some (Jv.jobj []) })

/-- C2 counterexample: with retry budget 0 (a value the claim quantifies
over), a 500 response followed by an available 200 response produces one
outbound call and a raised error — not two calls delivering the 200
payload. -/
theorem c2_counterexample :
    (request 10000 0 env500then200).2 = 1 ∧
    (request 10000 0 env500then200).1 =
      .err { message := "Internal error", statusCode := 500, code := some "Internal error" } :=
  ⟨rfl, rfl⟩

/-- C2 (amended): for retry budget `r ≥ 1` a 500 then a 200 yield exactly
two outbound calls delivering the 200 payload; a 4xx response yields
exactly one call and the classified error, for every budget; and every
execution makes at most `r + 1` calls. -/
theorem c2_retry_semantics :
    (∀ (timeoutMs retries : Nat) (env : Nat → FetchResult) (b500 body : ApiBody) (d : Jv),
      1 ≤ retries →
      env 0 = .replied 500 (some b500) →
      env 1 = .replied 200 (some body) →
      body.data = some d → d.truthy = true →
      request timeoutMs retries env = (.ok d, 2)) ∧
    (∀ (timeoutMs retries status : Nat) (env : Nat → FetchResult) (body : ApiBody),
      env 0 = .replied status (some body) →
      400 ≤ status → status < 500 →
      request timeoutMs retries env =
        (.err { message := body.error.getD ("InsureRelay returned " ++ strOfChars (natToDec status)),
                statusCode := status, code := body.error, details := body.details }, 1)) ∧
    (∀ (timeoutMs retries : Nat) (env : Nat → FetchResult),
      (request timeoutMs retries env).2 ≤ retries + 1) := by
  refine ⟨?_, ?_, ?_⟩
  · intro timeoutMs retries env b500 body d hret henv0 henv1 hdata htruthy
    obtain ⟨r, rfl⟩ : ∃ r, retries = r + 1 := ⟨retries - 1, by omega⟩
    rw [request, requestGo, henv0]
    dsimp only
    rw [if_pos (by decide)]
    rw [if_pos (by omega)]
    rw [requestGo, henv1]
    dsimp only
    rw [if_neg (by decide), hdata]
    dsimp only
    rw [htruthy]
    rfl
  · intro timeoutMs retries status env body henv h400 h500
    rw [request, requestGo, henv]
    dsimp only
    rw [if_pos (by simp only [Bool.not_eq_true', Bool.and_eq_false_iff,
      decide_eq_false_iff_not]; omega)]
    cases retries with
    | zero => rfl
    | succ r =>
      dsimp only
      rw [if_neg (by omega)]
      rfl
  · intro timeoutMs retries env
    have := requestGo_calls_le timeoutMs env retries 0
    rw [request]
    omega

/-- C2 witness: the three parts at budget 2 (500-then-200), budget 0
(422), and the call bound for the 422 run. -/
theorem c2_witness :
    request 10000 2 env500then200 = (.ok (Jv.jstr "ok"), 2) ∧
    request 10000 0 env422 =
      (.err { message := "VALIDATION_ERROR", statusCode := 422,
              code := some "VALIDATION_ERROR", details := some (Jv.jobj []) }, 1) ∧
    (request 10000 2 env422).2 ≤ 3 :=
  ⟨c2_retry_semantics.1 10000 2 env500then200 _ _ (Jv.jstr "ok")
      (by omega) rfl rfl rfl rfl,
   c2_retry_semantics.2.1 10000 0 422 env422 _ rfl (by omega) (by omega),
   c2_retry_semantics.2.2 10000 2 env422⟩

/-- C1 counterexample: `"a.e30.b"` has three segments and its payload
segment decodes to the JSON object `{}` — decodable but with no expiry
field — yet `isTokenExpired` reports it NOT expired (in JS,
`undefined <= n` is false), contradicting the claimed fail-safe. -/
theorem c1_counterexample :
    jsonParse (utf8DecodeAll (b64Decode "e30".data)) = some (Jv.jobj []) ∧
    isTokenExpired "a.e30.b" 30 1000 = false :=
  ⟨rfl, rfl⟩

/-- C1 (amended): a token with a segment count other than three, or whose
payload segment does not parse as JSON, is always reported expired; but a
token whose payload parses to an object *missing* the expiry field is
reported NOT expired — the `undefined <= now + buffer` comparison is false
rather than fail-safe. -/
theorem c1_malformed_tokens :
    (∀ (token : String) (buf now : Nat),
      (¬ ∃ a p s, splitOnChar '.' token.data = [a, p, s]) →
      isTokenExpired token buf now = true) ∧
    (∀ (token : String) (a p s : List Char) (buf now : Nat),
      splitOnChar '.' token.data = [a, p, s] →
      jsonParse (utf8DecodeAll (b64Decode p)) = none →
      isTokenExpired token buf now = true) ∧
    (∀ (token : String) (a p s : List Char) (fields : List (String × Jv)) (buf now : Nat),
      splitOnChar '.' token.data = [a, p, s] →
      jsonParse (utf8DecodeAll (b64Decode p)) = some (Jv.jobj fields) →
      jsObjGet "exp" fields = none →
      isTokenExpired token buf now = false) := by
  refine ⟨?_, ?_, ?_⟩
  · intro token buf now h
    rw [isTokenExpired]
    rcases hs : splitOnChar '.' token.data with _ | ⟨a, _ | ⟨p, _ | ⟨q, _ | t⟩⟩⟩
    · rfl
    · rfl
    · rfl
    · exact absurd ⟨a, p, q, hs⟩ h
    · rfl
  · intro token a p s buf now hsplit hparse
    rw [isTokenExpired, hsplit]
    dsimp only
    rw [hparse]
  · intro token a p s fields buf now hsplit hparse hexp
    rw [isTokenExpired, hsplit]
    dsimp only
    rw [hparse]
    dsimp only [expRead]
    rw [hexp]
    rfl

/-- C1 witness: a two-segment token, a three-segment token with an
unparseable payload, and the missing-expiry token of the counterexample. -/
theorem c1_witness :
    isTokenExpired "a.b" 30 0 = true ∧
    isTokenExpired "a.!!.c" 30 0 = true ∧
    isTokenExpired "a.e30.b" 30 5 = false := by
  refine ⟨?_, ?_, ?_⟩
  · refine c1_malformed_tokens.1 "a.b" 30 0 ?_
    rintro ⟨a, p, s, h⟩
    rw [show splitOnChar '.' "a.b".data = [['a'], ['b']] from rfl] at h
    simp at h
  · exact c1_malformed_tokens.2.1 "a.!!.c" ['a'] ['!', '!'] ['c'] 30 0 rfl rfl
  · exact c1_malformed_tokens.2.2 "a.e30.b" ['a'] ['e', '3', '0'] ['b'] [] 30 5 rfl rfl rfl

/-- C3 counterexample: a token freshly minted with TTL 10 s is reported
expired immediately at the same timestamp (the default 30 s buffer exceeds
the TTL), refuting "not-expired immediately after minting" as universally
quantified over the TTL. -/
theorem c3_counterexample :
    isTokenExpired (mintServiceJwt "SIG" "test-org" 10 1000) 30 1000 = true := rfl

/-- C3 (amended): for every signature segment (dot-free, as a base64url
HMAC digest always is), programId, TTL and mint time, the expiry check on
the minted token is exactly `now + ttl ≤ check + buffer`; hence the token
is not-expired immediately after minting at the default 30 s buffer
whenever `ttl > 30` (not for every TTL), and is expired as soon as the
buffer-adjusted clock reaches `issuedAt + ttl`. -/
theorem c3_mint_roundtrip (sig pid : String) (ttl now : Nat)
    (hsig : '.' ∉ sig.data) :
    (∀ (nowCheck buf : Nat),
      isTokenExpired (mintServiceJwt sig pid ttl now) buf nowCheck =
        decide (now + ttl ≤ nowCheck + buf)) ∧
    (30 < ttl → isTokenExpired (mintServiceJwt sig pid ttl now) 30 now = false) ∧
    (∀ nowCheck : Nat, now + ttl ≤ nowCheck + 30 →
      isTokenExpired (mintServiceJwt sig pid ttl now) 30 nowCheck = true) := by
  refine ⟨fun nowCheck buf => isTokenExpired_mint sig pid ttl now buf nowCheck hsig, ?_, ?_⟩
  · intro httl
    rw [isTokenExpired_mint sig pid ttl now 30 now hsig]
    simp
    omega
  · intro nowCheck hpast
    rw [isTokenExpired_mint sig pid ttl now 30 nowCheck hsig]
    simp [hpast]

/-- C3 witness: a 300 s token minted at t=1000 is fresh at t=1000 and
expired at t=1271 (1271 + 30 ≥ 1300). -/
theorem c3_witness :
    isTokenExpired (mintServiceJwt "SIG" "test-org" 300 1000) 30 1000 = false ∧
    isTokenExpired (mintServiceJwt "SIG" "test-org" 300 1000) 30 1271 = true :=
  ⟨(c3_mint_roundtrip "SIG" "test-org" 300 1000 (by decide)).2.1 (by omega),
   (c3_mint_roundtrip "SIG" "test-org" 300 1000 (by decide)).2.2 1271 (by omega)⟩

/-- The conjunction of checks `sendEmail` performs before building the
request body (truthiness conventions as in the source). -/
def emailSendValid (opts : SendOpts) : Bool :=
  optTruthy opts.«to».email && emailRegexTest (opts.«to».email.getD "") &&
  (optTruthy opts.template || opts.content.isSome) &&
  !(optTruthy opts.template && opts.content.isSome) &&
  (match opts.content with
   | some content => optTruthy content.subject && (optTruthy content.html || optTruthy content.text)
   | none => true)

/-- The conjunction of checks `sendSMS` performs before building the
request body. -/
def smsSendValid (opts : SendOpts) : Bool :=
  optTruthy opts.«to».phone && phoneRegexTest (opts.«to».phone.getD "") &&
  (optTruthy opts.template || opts.content.isSome) &&
  !(optTruthy opts.template && opts.content.isSome) &&
  (match opts.content with
   | some content => optTruthy content.text
   | none => true)

/-- C4 (amended): each sender returns a body (and only then reaches the
network layer) iff its validation conjunction holds, where the phone
check is the source regex `^\+[1-9]\d{1,14}$` — two to fifteen digits
after the `+`, not one to fifteen as claimed; every rejection is a
`RelayError` with status 400 and code `VALIDATION_ERROR`, thrown before
any request is built. -/
theorem c4_validation :
    (∀ (cfg : ResolvedConfig) (opts : SendOpts),
      ((∃ body, sendEmail cfg opts = .ok body) ↔ emailSendValid opts = true) ∧
      (∀ e, sendEmail cfg opts = .error e →
        e.statusCode = 400 ∧ e.code = some "VALIDATION_ERROR")) ∧
    (∀ (cfg : ResolvedConfig) (opts : SendOpts),
      ((∃ body, sendSMS cfg opts = .ok body) ↔ smsSendValid opts = true) ∧
      (∀ e, sendSMS cfg opts = .error e →
        e.statusCode = 400 ∧ e.code = some "VALIDATION_ERROR")) := by
  constructor
  · intro cfg opts
    cases hct : opts.content with
    | none =>
      unfold sendEmail emailSendValid
      rw [hct]
      cases hE : optTruthy opts.«to».email <;>
        cases hR : emailRegexTest (opts.«to».email.getD "") <;>
          cases hT : optTruthy opts.template <;>
            simp_all [validationError]
    | some content =>
      unfold sendEmail emailSendValid
      rw [hct]
      cases hE : optTruthy opts.«to».email <;>
        cases hR : emailRegexTest (opts.«to».email.getD "") <;>
          cases hT : optTruthy opts.template <;>
            cases hS : optTruthy content.subject <;>
              cases hH : optTruthy content.html <;>
                cases hX : optTruthy content.text <;>
                  simp_all [validationError]
  · intro cfg opts
    cases hct : opts.content with
    | none =>
      unfold sendSMS smsSendValid
      rw [hct]
      cases hP : optTruthy opts.«to».phone <;>
        cases hR : phoneRegexTest (opts.«to».phone.getD "") <;>
          cases hT : optTruthy opts.template <;>
            simp_all [validationError]
    | some content =>
      unfold sendSMS smsSendValid
      rw [hct]
      cases hP : optTruthy opts.«to».phone <;>
        cases hR : phoneRegexTest (opts.«to».phone.getD "") <;>
          cases hT : optTruthy opts.template <;>
            cases hX : optTruthy content.text <;>
              simp_all [validationError]

/-- Modelled from the claim's wording only (not the source): a `+`
followed by one to fifteen digits, the first being 1-9. -/
def claimPhoneShape (s : String) : Bool :=
  match s.data with
  | '+' :: d :: rest =>
    isDigitCh d && d != '0' && rest.all isDigitCh && rest.length ≤ 14
  | _ => false

/-- An SMS send whose recipient is the one-digit E.164 number "+7". -/
def optsPhone7 : SendOpts :=
  { «to» := { phone := some "+7" }, template := some "password-reset" }

/-- C4 counterexample: `"+7"` satisfies the claimed phone shape ('+' then
1-15 digits, first 1-9) but the source regex `^\+[1-9]\d{1,14}$` demands
at least two digits, so `sendSMS` rejects it with a 400 validation error
where the claim says validation must pass. -/
theorem c4_counterexample :
    claimPhoneShape "+7" = true ∧
    phoneRegexTest "+7" = false ∧
    sendSMS cfgLegacy optsPhone7 =
      .error (validationError "Recipient phone must be in E.164 format (e.g., +15551234567)") :=
  ⟨rfl, rfl, rfl⟩

/-- A well-formed templated email send. -/
def optsEmailOk : SendOpts :=
  { «to» := { email := some "user@example.com" }, template := some "welcome" }

/-- An email send with no recipient address. -/
def optsEmailNoAddr : SendOpts :=
  { «to» := { name := some "Test" }, template := some "welcome" }

/-- C4 witness: a valid templated email passes validation; the no-address
email is rejected with status 400 / VALIDATION_ERROR. -/
theorem c4_witness :
    (∃ body, sendEmail cfgLegacy optsEmailOk = .ok body) ∧
    ((validationError "Valid recipient email is required for email channel").statusCode = 400 ∧
     (validationError "Valid recipient email is required for email channel").code =
       some "VALIDATION_ERROR") :=
  ⟨((c4_validation.1 cfgLegacy optsEmailOk).1).mpr (by decide),
   (c4_validation.1 cfgLegacy optsEmailNoAddr).2 _ rfl⟩

/-- A raw-content email send whose options also carry `template: ""` —
accepted by validation (the empty string is falsy) but non-nullish. -/
def optsRawEmptyTemplate : SendOpts :=
  { «to» := { email := some "user@example.com" }, template := some ""
    content := some { subject := some "Hi", text := some "Hello" } }

/-- C8 counterexample: a valid raw-content email send without a
`metadata.sourceAction` override where the body's `sourceAction` is `""`
rather than `"raw_email"`: validation and the body spread test the
template by truthiness, but the `?? 'raw_email'` fallback is nullish and
keeps the supplied empty string. -/
theorem c8_counterexample :
    optTruthy optsRawEmptyTemplate.template = false ∧
    optsRawEmptyTemplate.content.isSome = true ∧
    optsRawEmptyTemplate.metadata = none ∧
    (sendEmail cfgLegacy optsRawEmptyTemplate).map (fun b => b.metadata.sourceAction) =
      .ok "" ∧
    (sendEmail cfgLegacy optsRawEmptyTemplate).map (fun b => b.template) = .ok none :=
  ⟨rfl, rfl, rfl, rfl, rfl⟩

/-- Every `.ok` result of `sendEmail` is exactly the body built by
`buildSendBody` with the `raw_email` fallback. -/
theorem sendEmail_ok_body {cfg : ResolvedConfig} {opts : SendOpts} {body : SendRequest}
    (h : sendEmail cfg opts = .ok body) :
    body = buildSendBody cfg opts "email" (sourceActionOf opts "raw_email") := by
  cases hct : opts.content with
  | none =>
    unfold sendEmail at h
    rw [hct] at h
    split_ifs at h <;> simp_all
  | some content =>
    unfold sendEmail at h
    rw [hct] at h
    split_ifs at h <;> try simp_all
    all_goals split_ifs at h <;> simp_all

/-- Every `.ok` result of `sendSMS` is exactly the body built by
`buildSendBody` with the `raw_sms` fallback. -/
theorem sendSMS_ok_body {cfg : ResolvedConfig} {opts : SendOpts} {body : SendRequest}
    (h : sendSMS cfg opts = .ok body) :
    body = buildSendBody cfg opts "sms" (sourceActionOf opts "raw_sms") := by
  cases hct : opts.content with
  | none =>
    unfold sendSMS at h
    rw [hct] at h
    split_ifs at h <;> simp_all
  | some content =>
    unfold sendSMS at h
    rw [hct] at h
    split_ifs at h <;> try simp_all
    all_goals split_ifs at h <;> simp_all

/-- The `sourceAction` and `template` fields of a built body, without a
metadata override. -/
theorem buildSendBody_source_action (cfg : ResolvedConfig) (opts : SendOpts)
    (channel fallback : String)
    (hmeta : opts.metadata.bind PartialMetadata.sourceAction = none) :
    (optTruthy opts.template = true →
      (buildSendBody cfg opts channel (sourceActionOf opts fallback)).metadata.sourceAction =
          opts.template.getD "" ∧
        (buildSendBody cfg opts channel (sourceActionOf opts fallback)).template =
          opts.template) ∧
    (opts.template = none →
      (buildSendBody cfg opts channel (sourceActionOf opts fallback)).metadata.sourceAction =
          fallback ∧
        (buildSendBody cfg opts channel (sourceActionOf opts fallback)).template = none) := by
  constructor
  · intro ht
    cases htp : opts.template with
    | none =>
      rw [htp] at ht
      exact absurd ht (by simp [optTruthy])
    | some t =>
      constructor
      · have hproj : (buildSendBody cfg opts channel (sourceActionOf opts fallback)).metadata.sourceAction =
            sourceActionOf opts fallback := rfl
        rw [hproj]
        unfold sourceActionOf
        rw [hmeta, htp]
        simp
      · have hproj : (buildSendBody cfg opts channel (sourceActionOf opts fallback)).template =
            (if optTruthy opts.template then opts.template else none) := rfl
        rw [hproj, if_pos ht]
        exact htp
  · intro htp
    unfold buildSendBody sourceActionOf
    rw [hmeta, htp]
    simp [optTruthy]

/-- C8 (amended): without a `metadata.sourceAction` override, a send whose
options carry a truthy template puts that template name in
`metadata.sourceAction` and in the body's `template` field; a send whose
options carry no template at all (field absent, not merely falsy) gets the
literal `raw_email` / `raw_sms` marker and a body omitting `template`.
(When an empty-string template accompanies raw content, the marker is
skipped and `sourceAction` becomes that empty string — the fallback chain
is nullish while validation is truthy-based.) -/
theorem c8_source_action :
    (∀ (cfg : ResolvedConfig) (opts : SendOpts) (body : SendRequest),
      opts.metadata.bind PartialMetadata.sourceAction = none →
      sendEmail cfg opts = .ok body →
      (optTruthy opts.template = true →
        body.metadata.sourceAction = opts.template.getD "" ∧ body.template = opts.template) ∧
      (opts.template = none →
        body.metadata.sourceAction = "raw_email" ∧ body.template = none)) ∧
    (∀ (cfg : ResolvedConfig) (opts : SendOpts) (body : SendRequest),
      opts.metadata.bind PartialMetadata.sourceAction = none →
      sendSMS cfg opts = .ok body →
      (optTruthy opts.template = true →
        body.metadata.sourceAction = opts.template.getD "" ∧ body.template = opts.template) ∧
      (opts.template = none →
        body.metadata.sourceAction = "raw_sms" ∧ body.template = none)) := by
  constructor
  · intro cfg opts body hmeta hok
    obtain rfl := sendEmail_ok_body hok
    exact buildSendBody_source_action cfg opts "email" "raw_email" hmeta
  · intro cfg opts body hmeta hok
    obtain rfl := sendSMS_ok_body hok
    exact buildSendBody_source_action cfg opts "sms" "raw_sms" hmeta

/-- A raw-content SMS with no template field at all. -/
def optsRawSms : SendOpts :=
  { «to» := { phone := some "+15551234567" }
    content := some { text := some "Your code is 123456" } }

/-- C8 witness: the templated email gets `sourceAction = "welcome"` and
keeps the template field; the template-less raw SMS gets
`sourceAction = "raw_sms"` and omits the template field. -/
theorem c8_witness :
    ((sendEmail cfgLegacy optsEmailOk = .ok (buildSendBody cfgLegacy optsEmailOk "email"
        (sourceActionOf optsEmailOk "raw_email"))) ∧
      (buildSendBody cfgLegacy optsEmailOk "email"
        (sourceActionOf optsEmailOk "raw_email")).metadata.sourceAction = "welcome") ∧
    ((sendSMS cfgLegacy optsRawSms = .ok (buildSendBody cfgLegacy optsRawSms "sms"
        (sourceActionOf optsRawSms "raw_sms"))) ∧
      (buildSendBody cfgLegacy optsRawSms "sms"
        (sourceActionOf optsRawSms "raw_sms")).metadata.sourceAction = "raw_sms" ∧
      (buildSendBody cfgLegacy optsRawSms "sms"
        (sourceActionOf optsRawSms "raw_sms")).template = none) := by
  refine ⟨⟨rfl, ?_⟩, ⟨rfl, ?_, ?_⟩⟩
  · have h := (c8_source_action.1 cfgLegacy optsEmailOk _ rfl rfl).1 rfl
    exact h.1
  · have h := (c8_source_action.2 cfgLegacy optsRawSms _ rfl rfl).2 rfl
    exact h.1
  · have h := (c8_source_action.2 cfgLegacy optsRawSms _ rfl rfl).2 rfl
    exact h.2

end IecRelay
